import Mathlib

/-!
Verification of the trading-technical-indicators core: indicator signal
derivation, the walk-forward signal engine, and the ML feature/label
assembly pipeline (`tti.indicators.*`, `tti.ml._machine_learning_data`).

Price and indicator values are modelled as exact rationals; a pandas `NaN`
entry is modelled as `none` in `Option ℚ` and every comparison against a
`none` is false, matching IEEE comparison semantics for NaN.  Series are
Lean lists ordered by the (sorted, unique) timestamp index, so restriction
of a DataFrame to `index <= index[i]` is `List.take (i+1)`.
-/

attribute [local semireducible] Rat.add Rat.sub Rat.mul Rat.inv

namespace TTI

/-- Trade signal values, from `tti.utils.constants.TRADE_SIGNALS`
(values documented in every indicator's `getTiSignal` docstring):
`('hold', 0)`, `('buy', -1)`, `('sell', 1)`. -/
def TRADE_SIGNALS (key : String) : String × Int :=
  if key = "buy" then ("buy", -1)
  else if key = "sell" then ("sell", 1)
  else ("hold", 0)

/-- Python `a < b` on possibly-NaN floats: false when either side is NaN. -/
def oLT (a b : Option ℚ) : Bool :=
  match a, b with
  | some x, some y => decide (x < y)
  | _, _ => false

/-- Python `a > b` on possibly-NaN floats: false when either side is NaN. -/
def oGT (a b : Option ℚ) : Bool :=
  match a, b with
  | some x, some y => decide (y < x)
  | _, _ => false

/-- NaN-propagating subtraction. -/
def oSub (a b : Option ℚ) : Option ℚ :=
  match a, b with
  | some x, some y => some (x - y)
  | _, _ => none

/-- NaN-propagating addition. -/
def oAdd (a b : Option ℚ) : Option ℚ :=
  match a, b with
  | some x, some y => some (x + y)
  | _, _ => none

/-- NaN-propagating division (division by zero is not exercised by any
theorem below; `ℚ` division returns 0 there). -/
def oDiv (a b : Option ℚ) : Option ℚ :=
  match a, b with
  | some x, some y => some (x / y)
  | _, _ => none

/-- `series.iat[-1]`. -/
def iat1 {α : Type} [Inhabited α] (l : List α) : α :=
  l.getD (l.length - 1) default

/-- `series.iat[-2]`. -/
def iat2 {α : Type} [Inhabited α] (l : List α) : α :=
  l.getD (l.length - 2) default

/-- `series.iat[-3]`. -/
def iat3 {α : Type} [Inhabited α] (l : List α) : α :=
  l.getD (l.length - 3) default

instance : Inhabited ℚ := ⟨0⟩

/-- The OHLCV input series (`_input_data`), columns as parallel lists. -/
structure InputData where
  high : List ℚ
  low : List ℚ
  close : List ℚ
  volume : List ℚ
  deriving DecidableEq, Repr

/-- All columns have the same number of rows (spec §3 TimeSeries invariant). -/
def InputData.sameLen (d : InputData) : Prop :=
  d.high.length = d.close.length ∧ d.low.length = d.close.length ∧
    d.volume.length = d.close.length

instance (d : InputData) : Decidable d.sameLen := by
  unfold InputData.sameLen; infer_instance

/-- Number of rows of the input (`len(self._input_data.index)`). -/
def InputData.len (d : InputData) : Nat := d.close.length

/-- Restriction of the input to the first `n` rows
(`data[data.index <= data.index[n-1]]` under a sorted unique index). -/
def InputData.take (d : InputData) (n : Nat) : InputData :=
  ⟨d.high.take n, d.low.take n, d.close.take n, d.volume.take n⟩

/-! ### Pandas primitives used by the indicator calculations -/

/-- One indicator column; `none` entries are NaN. -/
abbrev TiCol := List (Option ℚ)

/-- Lift a NaN-free column. -/
def vals (l : List ℚ) : TiCol := l.map some

/-- `series.shift(p)`: entry `j` is entry `j - p`, NaN for `j < p`. -/
def shiftL (p : Nat) (l : TiCol) : TiCol :=
  (List.range l.length).map fun j => if p ≤ j then l.getD (j - p) none else none

/-- `series.diff(p)`: entry `j` is `l[j] - l[j-p]`, NaN for `j < p`. -/
def diffL (p : Nat) (l : TiCol) : TiCol :=
  (List.range l.length).map fun j =>
    if p ≤ j then oSub (l.getD j none) (l.getD (j - p) none) else none

/-- Sum of a window; NaN as soon as the window has a NaN. -/
def owsum (w : TiCol) : Option ℚ :=
  if w.all Option.isSome then some (w.foldl (fun acc x => acc + x.getD 0) 0)
  else none

/-- `series.rolling(w, min_periods=w).sum()`: entry `j` is the sum of the
window `j-w+1..j` when it holds `w` non-NaN values, else NaN. -/
def rollingSum (w : Nat) (l : TiCol) : TiCol :=
  (List.range l.length).map fun j =>
    if w ≤ j + 1 then owsum ((l.take (j + 1)).drop (j + 1 - w)) else none

/-- Recursion of `series.ewm(alpha, min_periods=minp, adjust=False).mean()`:
`m` is the running mean (none before the first non-NaN observation), `cnt`
the number of non-NaN observations consumed so far; the output is masked to
NaN until `minp` observations have been seen.  The inputs in this
development have NaNs only at the head, where the `ignore_na` distinction
is vacuous. -/
def ewmGo (al : ℚ) (minp : Nat) : Option ℚ → Nat → TiCol → TiCol
  | _, _, [] => []
  | m, cnt, none :: xs =>
      (if minp ≤ cnt then m else none) :: ewmGo al minp m cnt xs
  | m, cnt, some v :: xs =>
      let m2 : ℚ := match m with
        | none => v
        | some mv => al * v + (1 - al) * mv
      (if minp ≤ cnt + 1 then some m2 else none) :: ewmGo al minp (some m2) (cnt + 1) xs

/-- `series.ewm(span=s, min_periods=minp, adjust=False).mean()` with
`alpha = 2 / (s + 1)`. -/
def ewmMean (span minp : Nat) (l : TiCol) : TiCol :=
  ewmGo (2 / ((span : ℚ) + 1)) minp none 0 l

/-- `series.cumsum()` over a NaN-free-tail column (NaN entries stay NaN and
are skipped by the running sum, pandas `skipna` default). -/
def cumsumGo (acc : ℚ) : TiCol → TiCol
  | [] => []
  | none :: xs => none :: cumsumGo acc xs
  | some v :: xs => some (acc + v) :: cumsumGo (acc + v) xs

/-- `series.cumsum()`. -/
def cumsumL (l : TiCol) : TiCol := cumsumGo 0 l

/-- Mean of the last `k` rows (`series.iloc[-k:].mean()`); NaN on an empty
series, all rows when fewer than `k` exist. -/
def tailMean (k : Nat) (l : List ℚ) : Option ℚ :=
  let s := l.drop (l.length - k)
  if s.isEmpty then none else some (s.foldl (· + ·) 0 / s.length)

end TTI

namespace TTI

/-! ### Parabolic SAR (`tti/indicators/_parabolic_sar.py`) -/

/-- `self._af_increase` (`ParabolicSAR.__init__`). -/
def afIncrease : ℚ := 2 / 100

/-- `self._af_max` (`ParabolicSAR.__init__`). -/
def afMax : ℚ := 2 / 10

/-- The `position` column of the SAR state. -/
inductive SarPosition
  | LONG
  | SHORT
  deriving DecidableEq, Repr

/-- One row `(af, ep, sar, position)` of the SAR calculation. -/
structure SarRow where
  af : ℚ
  ep : ℚ
  sar : ℚ
  position : SarPosition
  deriving DecidableEq, Repr

instance : Inhabited SarRow := ⟨⟨0, 0, 0, .LONG⟩⟩

/-- `series.iloc[a:b].max()` (0 on an empty slice, which no caller below
reaches). -/
def sliceMax (l : List ℚ) (a b : Nat) : ℚ :=
  match (l.take b).drop a with
  | [] => 0
  | x :: xs => xs.foldl max x

/-- `series.iloc[a:b].min()` (0 on an empty slice, which no caller below
reaches). -/
def sliceMin (l : List ℚ) (a b : Nat) : ℚ :=
  match (l.take b).drop a with
  | [] => 0
  | x :: xs => xs.foldl min x

/-- `ParabolicSAR._calculateSarRow`: computes row `ci` from the previous
row, the current position's start index `psi`, and the `position_changed`
flag `pc`; returns the row together with the updated start index.  The
`pc = true` re-invocation mirrors the recursive call performed when the
flip condition is met. -/
def calcSarRow (inp : InputData) (ci psi : Nat) (prev : SarRow) (pc : Bool) :
    SarRow × Nat :=
  if ci = 0 then
    if inp.high.getD 0 0 < inp.high.getD 1 0 then
      (⟨afIncrease, inp.high.getD 0 0, inp.low.getD 0 0, .LONG⟩, ci)
    else
      (⟨afIncrease, inp.low.getD 0 0, inp.high.getD 0 0, .SHORT⟩, ci)
  else if pc then
    match prev.position with
    | .LONG => (⟨afIncrease, inp.low.getD ci 0, sliceMax inp.high psi ci, .SHORT⟩, ci)
    | .SHORT => (⟨afIncrease, inp.high.getD ci 0, sliceMin inp.low psi ci, .LONG⟩, ci)
  else
    let ep : ℚ := match prev.position with
      | .LONG => sliceMax inp.high psi (ci + 1)
      | .SHORT => sliceMin inp.low psi (ci + 1)
    let af : ℚ :=
      if prev.position = .LONG ∧ prev.ep < ep then min afMax (prev.af + afIncrease)
      else if prev.position = .SHORT ∧ ep < prev.ep then min afMax (prev.af + afIncrease)
      else prev.af
    let sar0 : ℚ := prev.sar + prev.af * (prev.ep - prev.sar)
    let sar : ℚ := match prev.position with
      | .LONG => min sar0 (sliceMin inp.low (ci - 2) ci)
      | .SHORT => max sar0 (sliceMax inp.high (ci - 2) ci)
    if (prev.position = .SHORT ∧ sar < inp.high.getD ci 0) ∨
        (prev.position = .LONG ∧ inp.low.getD ci 0 < sar) then
      calcSarRow inp ci psi prev true
    else
      (⟨af, ep, sar, prev.position⟩, psi)
termination_by (if pc then 0 else 1)
decreasing_by simp_all

/-- The loop of `ParabolicSAR._calculateTi`, threading the previous row and
`position_start_index`; `k` counts the remaining rows. -/
def sarRowsGo (inp : InputData) : Nat → SarRow → Nat → Nat → List SarRow
  | _, _, _, 0 => []
  | i, prev, psi, k + 1 =>
      let rp := calcSarRow inp i psi prev false
      rp.1 :: sarRowsGo inp (i + 1) rp.1 rp.2 k

/-- The rows computed by `ParabolicSAR._calculateTi` (the `previous_sar`
passed at row 0 is ignored by the `current_index == 0` branch). -/
def sarRows (inp : InputData) : List SarRow :=
  sarRowsGo inp 0 default 0 inp.len

/-- `.round(4)` applied to the returned `sar` column (numpy rounds half to
even; ties at the fifth decimal are not exercised by any theorem below). -/
def round4 (q : ℚ) : ℚ := (round (q * 10000) : ℤ) / 10000

/-- `ParabolicSAR._calculateTi`: raises `NotEnoughInputData` when fewer
than 2 rows are available, otherwise the `sar` column rounded to 4
decimals. -/
def parabolicSarCalc (inp : InputData) : Option TiCol :=
  if inp.len < 2 then none
  else some ((sarRows inp).map fun r => some (round4 r.sar))

/-! ### The other indicator calculations -/

/-- `Momentum._calculateTi` (the active revision): `MOM = close.diff(period)`.
The `MOMsignal` and `close` passthrough columns of the returned frame are
never read downstream and are omitted.  This revision never raises. -/
def momentumCalc (period : Nat) (inp : InputData) : Option TiCol :=
  some (diffL period (vals inp.close))

/-- `VolumeRateOfChange._calculateTi`:
`100 * (volume - volume.shift(p)) / volume.shift(p)`;
raises `NotEnoughInputData` when `len < p`. -/
def vrocCalc (p : Nat) (inp : InputData) : Option TiCol :=
  if inp.len < p then none
  else
    let v := vals inp.volume
    let sh := shiftL p v
    some ((List.zipWith oDiv (List.zipWith oSub v sh) sh).map
      (Option.map fun x => 100 * x))

/-- `RelativeStrengthIndex._calculateTi`: `diff = input.diff(1)` on the
single mandatory `close` column; `pos[j] = diff[j] if diff[j] > 0 else 0`
(a NaN comparison is false, giving 0 at row 0);
`rsi = pos.rolling(p, min_periods=p).sum() / abs(diff).rolling(p, min_periods=p).sum()`.
Never raises. -/
def rsiCalc (p : Nat) (inp : InputData) : Option TiCol :=
  let d := diffL 1 (vals inp.close)
  let pos : TiCol := d.map fun x =>
    match x with
    | some v => if 0 < v then some v else some 0
    | none => some 0
  let dabs := d.map (Option.map abs)
  some (List.zipWith oDiv (rollingSum p pos) (rollingSum p dabs))

/-- `TripleExponentialMovingAverage._calculateTi`:
`tema = 3*ema - 3*double_ema + triple_ema`, each an
`ewm(span=p, min_periods=p, adjust=False).mean()` of the previous one;
raises `NotEnoughInputData` when `len < p` (`self._period` is the same
period, supplied by the base class). -/
def temaCalc (p : Nat) (inp : InputData) : Option TiCol :=
  if inp.len < p then none
  else
    let e1 := ewmMean p p (vals inp.close)
    let e2 := ewmMean p p e1
    let e3 := ewmMean p p e2
    some (List.zipWith oAdd
      (List.zipWith oSub (e1.map (Option.map (3 * ·))) (e2.map (Option.map (3 * ·))))
      e3)

/-- `ChaikinOscillator._calculateTi`: the accumulation/distribution line
`adl = volume * ((close - low) - (high - close)) / (high - low)`,
cumulated, then `co = adl.ewm(span=ws).mean() - adl.ewm(span=wl).mean()`
(each with `min_periods` equal to its span, `adjust=False`); raises
`NotEnoughInputData` when `len < 10`. -/
def chaikinCalc (ws wl : Nat) (inp : InputData) : Option TiCol :=
  if inp.len < 10 then none
  else
    let adl : List ℚ := (List.range inp.len).map fun j =>
      inp.volume.getD j 0 *
        ((inp.close.getD j 0 - inp.low.getD j 0) -
          (inp.high.getD j 0 - inp.close.getD j 0)) /
        (inp.high.getD j 0 - inp.low.getD j 0)
    let a := cumsumL (vals adl)
    some (List.zipWith oSub (ewmMean ws ws a) (ewmMean wl wl a))

/-- The indicator formulas implemented in `tti.indicators`, with the
calculation parameters supplied by the per-indicator base classes. -/
inductive SupportedIndicator
  | ParabolicSAR
  | ChaikinOscillator (ws wl : Nat)
  | Momentum (period : Nat)
  | RelativeStrengthIndex (period : Nat)
  | TripleExponentialMovingAverage (period : Nat)
  | VolumeRateOfChange (period : Nat)
  deriving DecidableEq, Repr

/-- `_calculateTi` dispatch: `none` models the `NotEnoughInputData` raise. -/
def calcTi : SupportedIndicator → InputData → Option TiCol
  | .ParabolicSAR => parabolicSarCalc
  | .ChaikinOscillator ws wl => chaikinCalc ws wl
  | .Momentum p => momentumCalc p
  | .RelativeStrengthIndex p => rsiCalc p
  | .TripleExponentialMovingAverage p => temaCalc p
  | .VolumeRateOfChange p => vrocCalc p

end TTI

namespace TTI

/-! ### Signal derivation (`getTiSignal` of each indicator class) -/

/-- `ParabolicSAR.getTiSignal`. -/
def parabolicSarSignal (inp : InputData) (ti : TiCol) : String × Int :=
  if ti.length < 2 then TRADE_SIGNALS "hold"
  else if oGT (some (iat2 inp.close)) (iat2 ti) &&
      oLT (some (iat1 inp.close)) (iat1 ti) then TRADE_SIGNALS "buy"
  else if oLT (some (iat2 inp.close)) (iat2 ti) &&
      oGT (some (iat1 inp.close)) (iat1 ti) then TRADE_SIGNALS "sell"
  else TRADE_SIGNALS "hold"

/-- `Momentum.getTiSignal`: a 9-period EMA of the `mom` column is compared
against `mom` at the last two rows. -/
def momentumSignal (ti : TiCol) : String × Int :=
  if ti.length < 9 then TRADE_SIGNALS "hold"
  else
    let ema := ewmMean 9 9 ti
    if oLT (iat2 ti) (iat2 ema) && oGT (iat1 ti) (iat1 ema) then
      TRADE_SIGNALS "sell"
    else if oGT (iat2 ti) (iat2 ema) && oLT (iat1 ti) (iat1 ema) then
      TRADE_SIGNALS "buy"
    else TRADE_SIGNALS "hold"

/-- `ChaikinOscillator.getTiSignal`: compares the last close against the
90-period close average and looks for an indicator turn at the last two
rows. -/
def chaikinSignal (inp : InputData) (ti : TiCol) : String × Int :=
  if ti.length < 90 then TRADE_SIGNALS "hold"
  else
    let ma90 := tailMean 90 inp.close
    if oGT (some (iat1 inp.close)) ma90 &&
        (oLT (iat2 ti) (iat1 ti) && oLT (iat1 ti) (some 0)) then
      TRADE_SIGNALS "buy"
    else if oLT (some (iat1 inp.close)) ma90 &&
        (oGT (iat2 ti) (iat1 ti) && oGT (iat1 ti) (some 0)) then
      TRADE_SIGNALS "sell"
    else TRADE_SIGNALS "hold"

/-- `VolumeRateOfChange.getTiSignal`: three-row monotony test on `vrc`. -/
def vrocSignal (ti : TiCol) : String × Int :=
  if ti.length < 3 then TRADE_SIGNALS "hold"
  else if oGT (iat3 ti) (iat2 ti) && oGT (iat2 ti) (iat1 ti) then
    TRADE_SIGNALS "buy"
  else if oLT (iat3 ti) (iat2 ti) && oLT (iat2 ti) (iat1 ti) then
    TRADE_SIGNALS "sell"
  else TRADE_SIGNALS "hold"

/-- `RelativeStrengthIndex.getTiSignal`: 70/30 crossing tests on the last
two `rsi` rows. -/
def rsiSignal (ti : TiCol) : String × Int :=
  if ti.length < 2 then TRADE_SIGNALS "hold"
  else if oLT (iat2 ti) (some 70) && oLT (some 70) (iat1 ti) then
    TRADE_SIGNALS "sell"
  else if oGT (iat2 ti) (some 30) && oGT (some 30) (iat1 ti) then
    TRADE_SIGNALS "buy"
  else TRADE_SIGNALS "hold"

/-- `TripleExponentialMovingAverage.getTiSignal`: last close against last
`tema` value. -/
def temaSignal (inp : InputData) (ti : TiCol) : String × Int :=
  if ti.length < 1 then TRADE_SIGNALS "hold"
  else if oLT (some (iat1 inp.close)) (iat1 ti) then TRADE_SIGNALS "buy"
  else if oGT (some (iat1 inp.close)) (iat1 ti) then TRADE_SIGNALS "sell"
  else TRADE_SIGNALS "hold"

/-- `getTiSignal` dispatch over the indicator state
`(_input_data, _ti_data)`. -/
def getTiSignal : SupportedIndicator → InputData → TiCol → String × Int
  | .ParabolicSAR, inp, ti => parabolicSarSignal inp ti
  | .ChaikinOscillator _ _, inp, ti => chaikinSignal inp ti
  | .Momentum _, _, ti => momentumSignal ti
  | .RelativeStrengthIndex _, _, ti => rsiSignal ti
  | .TripleExponentialMovingAverage _, inp, ti => temaSignal inp ti
  | .VolumeRateOfChange _, _, ti => vrocSignal ti

/-- The guard each `getTiSignal` applies before reading any data: fewer
TiData rows than this give HOLD (2, 9, 90, 3, 2 and 1 in the source). -/
def signalMin : SupportedIndicator → Nat
  | .ParabolicSAR => 2
  | .ChaikinOscillator _ _ => 90
  | .Momentum _ => 9
  | .RelativeStrengthIndex _ => 2
  | .TripleExponentialMovingAverage _ => 1
  | .VolumeRateOfChange _ => 3

/-! ### The walk-forward signal engine
(`MachineLearningData._getSignalsSequence`) -/

/-- `_getSignalsSequence`: for each `i` in `range(len(ti._ti_data.index))`,
substitute the restrictions of the indicator's full `_input_data` and
`_ti_data` to the prefix ending at row `i` and store
`ti.getTiSignal()[1]`. -/
def getSignalsSequence (ind : SupportedIndicator) (inp : InputData)
    (td : TiCol) : List Int :=
  (List.range td.length).map fun i =>
    (getTiSignal ind (inp.take (i + 1)) (td.take (i + 1))).2

/-- The reference value of claim C1: the signal of a fresh indicator
computed on the prefix `0..i` alone, with prefixes below the calculation
minimum (where `_calculateTi` would raise `NotEnoughInputData`) defined as
HOLD by the walk-forward convention. -/
def freshTiSignal (ind : SupportedIndicator) (inp : InputData) (i : Nat) :
    String × Int :=
  match calcTi ind (inp.take (i + 1)) with
  | none => TRADE_SIGNALS "hold"
  | some td => getTiSignal ind (inp.take (i + 1)) td

end TTI

namespace TTI

/-! ### Labels (`MachineLearningData._createMLDataLabels`) -/

/-- `ML_CLASSES` (`tti.utils.constants`): the `MachineLearningData`
docstring records the label values as `0` for downward (or unchanged) and
`1` for upward price direction. -/
def ML_CLASSES (key : String) : ℚ := if key = "UP" then 1 else 0

/-- `np.roll(a, shift=-h)`: left rotation by `h` (modulo the length). -/
def rollNeg (h : Nat) (a : List ℚ) : List ℚ :=
  a.drop (h % a.length) ++ a.take (h % a.length)

/-- `MachineLearningData._createMLDataLabels`:
`labels = np.roll(close, -h) - close`, then the mask assignments
`labels[labels > 0] = ML_CLASSES['UP']` and
`labels[labels <= 0] = ML_CLASSES['DOWN']`, applied in that order. -/
def createMLDataLabels (close : List ℚ) (h : Nat) : List ℚ :=
  let labels := List.zipWith (· - ·) (rollNeg h close) close
  let l1 := labels.map fun x => if 0 < x then ML_CLASSES "UP" else x
  l1.map fun x => if x ≤ 0 then ML_CLASSES "DOWN" else x

/-! ### Constructor validation (`MachineLearningData._validateInputArguments`) -/

/-- A Python value as seen by `isinstance(value, bool)` and by truth
testing. -/
structure PyVal where
  isBool : Bool
  truthy : Bool
  deriving DecidableEq, Repr

/-- The Python boolean `True`. -/
def pyTrue : PyVal := ⟨true, true⟩

/-- The Python boolean `False`. -/
def pyFalse : PyVal := ⟨true, false⟩

/-- The `price_diff_periods` argument: an `int`, or a value of any other
type. -/
inductive PyIntArg
  | intVal (h : Int)
  | nonInt
  deriving DecidableEq, Repr

/-- The `pool_size` argument: `None`, an `int`, or anything else. -/
inductive PoolArg
  | noneVal
  | intVal (n : Int)
  | otherVal
  deriving DecidableEq, Repr

/-- One `ti_features` entry `{'ti': name, 'kwargs': {...}}`: the dict's key
set, the value stored under `'ti'`, and whether the `'kwargs'` value is a
dict. -/
structure TiItem where
  keys : List String
  tiName : String
  kwargsIsDict : Bool
  deriving DecidableEq, Repr

/-- Modelled from the spec: the formula names registered in
`ALL_TI_FEATURES` (`tti.utils.constants` is not among the sources); per
spec §9 this is the static registry of the supported formulas, here the
indicator classes implemented in `tti.indicators`. -/
def supportedIndicators : List String :=
  ["ParabolicSAR", "ChaikinOscillator", "Momentum", "RelativeStrengthIndex",
   "TripleExponentialMovingAverage", "VolumeRateOfChange"]

/-- Modelled from the spec: `minimum_periods(formula, params)` (spec §4.1)
under each formula's default parameters, summarising the
`NotEnoughInputData` raises of the `_calculateTi` implementations reached
through the per-formula base classes during indicator construction
(Parabolic SAR 2, Chaikin Oscillator 10, Volume Rate of Change 5, TEMA 5;
the Momentum and RSI calculation revisions in the sources never raise). -/
def indicatorMinPeriods : String → Nat
  | "ParabolicSAR" => 2
  | "ChaikinOscillator" => 10
  | "VolumeRateOfChange" => 5
  | "TripleExponentialMovingAverage" => 5
  | _ => 0

/-- The constructor arguments of `MachineLearningData` (after
`fillMissingValues`), with `inputLen = len(self._input_data.index)`.
`ti_features` is `None` or a list — the only shapes the claims quantify
over (any other value already fails at the `len()` call of the
no-features check). -/
structure MLArgs where
  inputLen : Nat
  verbose : PyVal
  include_close_feature : PyVal
  include_volume_feature : PyVal
  ti_features : Option (List TiItem)
  price_diff_periods : PyIntArg
  pool_size : PoolArg
  deriving DecidableEq, Repr

/-- The exception kinds raised by `_validateInputArguments`
(`tti.utils.exceptions`). -/
inductive MLErr
  | wrongTypeForInputParameter (param : String)
  | wrongValueForInputParameter (param : String)
  | notEnoughInputData
  | noFeaturesSelectedForMLData
  deriving DecidableEq, Repr

/-- The four checks the `ti_features` loop applies to one entry, in source
order: unknown keys, missing `'ti'`/`'kwargs'`, unsupported formula name,
non-dict `'kwargs'`. -/
def checkTiItem (item : TiItem) : Except MLErr Unit :=
  if ¬ (item.keys.all fun k => k == "ti" || k == "kwargs") then
    .error (.wrongTypeForInputParameter "ti_features")
  else if ¬ (item.keys.contains "ti" && item.keys.contains "kwargs") then
    .error (.wrongTypeForInputParameter "ti_features")
  else if ¬ supportedIndicators.contains item.tiName then
    .error (.wrongValueForInputParameter "ti_features.ti")
  else if ¬ item.kwargsIsDict then
    .error (.wrongTypeForInputParameter "ti_features")
  else .ok ()

/-- The `ti_features` validation loop (vacuous for an empty list, as in the
source's `len == 0` branch). -/
def checkTiItems : List TiItem → Except MLErr Unit
  | [] => .ok ()
  | item :: rest =>
      match checkTiItem item with
      | .error e => .error e
      | .ok _ => checkTiItems rest

/-- Modelled from the spec: the indicator-construction pass closing
`_validateInputArguments` (`eval(item['ti'])(input_data, **kwargs)`; the
per-formula base classes are not among the sources).  Construction fails
with `NotEnoughInputData` when the input is shorter than the formula's
minimum periods. -/
def constructIndicators (n : Nat) : List TiItem → Except MLErr Unit
  | [] => .ok ()
  | item :: rest =>
      if n < indicatorMinPeriods item.tiName then .error .notEnoughInputData
      else constructIndicators n rest

/-- The tail of `_validateInputArguments` once the `price_diff_periods` and
`pool_size` checks have passed: the `ti_features` loop, the
`len(index) - price_diff_periods <= 0` check, and indicator
construction. -/
def validateTail (a : MLArgs) (tif : List TiItem) (h : Int) :
    Except MLErr Unit :=
  match checkTiItems tif with
  | .error e => .error e
  | .ok _ =>
      if (a.inputLen : Int) - h ≤ 0 then .error .notEnoughInputData
      else constructIndicators a.inputLen tif

/-- `MachineLearningData._validateInputArguments`, all checks in source
order.  The third check re-tests `include_close_feature` although the
raised error names `include_volume_feature` (source lines 153–162). -/
def validateInputArguments (a : MLArgs) : Except MLErr Unit :=
  if ¬ a.verbose.isBool then
    .error (.wrongTypeForInputParameter "verbose")
  else if ¬ a.include_close_feature.isBool then
    .error (.wrongTypeForInputParameter "include_close_feature")
  else if ¬ a.include_close_feature.isBool then
    .error (.wrongTypeForInputParameter "include_volume_feature")
  else
    let tif := a.ti_features.getD []
    if tif.length = 0 ∧ ¬ a.include_close_feature.truthy ∧
        ¬ a.include_volume_feature.truthy then
      .error .noFeaturesSelectedForMLData
    else if ¬ a.verbose.isBool then
      .error (.wrongTypeForInputParameter "verbose")
    else
      match a.price_diff_periods with
      | .nonInt => .error (.wrongTypeForInputParameter "price_diff_periods")
      | .intVal h =>
          if h < 1 ∨ (a.inputLen : Int) ≤ h then
            .error (.wrongValueForInputParameter "price_diff_periods")
          else
            match a.pool_size with
            | .intVal n =>
                if n < 1 then .error (.wrongValueForInputParameter "pool_size")
                else validateTail a tif h
            | .noneVal => validateTail a tif h
            | .otherVal => .error (.wrongTypeForInputParameter "pool_size")

end TTI

namespace TTI

/-! ### Feature/label assembly (`createMLData`, `_createMLDataFeatures`) -/

/-- The state of a `MachineLearningData` instance after successful
validation: input series, the instantiated indicator set with the TiData
each instance stores (`self._indicators_set`), the passthrough switches,
and the horizon `price_diff_periods`. -/
structure MLConfig where
  inp : InputData
  features : List (SupportedIndicator × TiCol)
  includeClose : Bool
  includeVolume : Bool
  h : Nat

/-- Column count of `self._ml_data`
(`len(ti_features) + close? + volume? + 1`, `MachineLearningData.__init__`). -/
def MLConfig.totalCols (c : MLConfig) : Nat :=
  c.features.length + (if c.includeClose then 1 else 0) +
    (if c.includeVolume then 1 else 0) + 1

/-- Row count of `self._ml_data` (`len(index) - price_diff_periods`). -/
def MLConfig.rows (c : MLConfig) : Nat := c.inp.len - c.h

/-- The walk-forward signal sequence of task `i` of the pool
(`self._getSignalsSequence(self._indicators_set[i])`). -/
def taskResult (tasks : List (SupportedIndicator × TiCol)) (inp : InputData)
    (i : Nat) : List Int :=
  let t := tasks.getD i (.ParabolicSAR, [])
  getSignalsSequence t.1 inp t.2

/-- A process-pool execution: tasks are submitted with `apply_async` in
configuration order and complete in the scheduling order `order`, each
depositing its result keyed by its task index. -/
def poolOutputs (tasks : List (SupportedIndicator × TiCol)) (inp : InputData)
    (order : List Nat) : List (Nat × List Int) :=
  order.map fun i => (i, taskResult tasks inp i)

/-- `[r.get() for r in results]` in `_createMLDataFeatures`: the `i`-th
`apply_async` handle retrieves the result of task `i` from the pool,
whatever the completion order; column `i` of the features array is then
assigned from it. -/
def poolResults (tasks : List (SupportedIndicator × TiCol)) (inp : InputData)
    (order : List Nat) : List (List Int) :=
  (List.range tasks.length).map fun i =>
    ((poolOutputs tasks inp order).lookup i).getD []

/-- Write one column of the column-major matrix (`self._ml_data[:, i] = col`). -/
def setCol (m : List (List ℚ)) (i : Nat) (col : List ℚ) : List (List ℚ) :=
  m.set i col

/-- `MachineLearningData.createMLData` with the pool completing in `order`:
starting from the zero matrix allocated in `__init__`
(shape `(N - h) × totalCols`, modelled column-major), write the indicator
signal columns `0..K-1` from `self._createMLDataFeatures()[:-h, :]`, then
the optional `close` and `volume` passthrough columns
(`iloc[:-h]`), then the labels column at the last position
(`self._ml_data[:, -1]`). -/
def createMLData (c : MLConfig) (order : List Nat) : List (List ℚ) :=
  let init := List.replicate c.totalCols (List.replicate c.rows (0 : ℚ))
  let sigCols := poolResults c.features c.inp order
  let m1 := (List.range c.features.length).foldl
    (fun m i => setCol m i (((sigCols.getD i []).take c.rows).map (Int.cast : Int → ℚ)))
    init
  let fi := c.features.length
  let m2 := if c.includeClose then setCol m1 fi (c.inp.close.take c.rows) else m1
  let fi2 := if c.includeClose then fi + 1 else fi
  let m3 := if c.includeVolume then setCol m2 fi2 (c.inp.volume.take c.rows) else m2
  setCol m3 (c.totalCols - 1) ((createMLDataLabels c.inp.close c.h).take c.rows)

end TTI

namespace TTI

/-! ### List access and prefix lemmas -/

theorem getD_take {α : Type} {l : List α} {n j : Nat} {d : α} (h : j < n) :
    (l.take n).getD j d = l.getD j d := by
  rw [List.getD_eq_getElem?_getD, List.getD_eq_getElem?_getD,
    List.getElem?_take, if_pos h]

theorem rangeMap_getD {β : Type} [Inhabited β] {f : Nat → β} {len j : Nat}
    (h : j < len) : ((List.range len).map f).getD j default = f j := by
  rw [List.getD_eq_getElem?_getD, List.getElem?_map, List.getElem?_range h]
  rfl

theorem take_rangeMap {β : Type} {f g : Nat → β} {len n : Nat}
    (h : ∀ j, j < min n len → f j = g j) :
    (List.range (min n len)).map f = ((List.range len).map g).take n := by
  rw [← List.map_take, List.take_range]
  exact List.map_congr_left fun a ha => h a (List.mem_range.mp ha)

/-! ### Lengths of the pandas primitives -/

theorem vals_length (l : List ℚ) : (vals l).length = l.length :=
  List.length_map _ _

theorem shiftL_length (p : Nat) (l : TiCol) : (shiftL p l).length = l.length := by
  rw [shiftL, List.length_map, List.length_range]

theorem diffL_length (p : Nat) (l : TiCol) : (diffL p l).length = l.length := by
  rw [diffL, List.length_map, List.length_range]

theorem rollingSum_length (w : Nat) (l : TiCol) :
    (rollingSum w l).length = l.length := by
  rw [rollingSum, List.length_map, List.length_range]

theorem ewmGo_length (al : ℚ) (minp : Nat) :
    ∀ (l : TiCol) (m : Option ℚ) (cnt : Nat),
      (ewmGo al minp m cnt l).length = l.length
  | [], _, _ => rfl
  | none :: xs, m, cnt => by
      simp only [ewmGo, List.length_cons, ewmGo_length al minp xs]
  | some v :: xs, m, cnt => by
      simp only [ewmGo, List.length_cons, ewmGo_length al minp xs]

theorem ewmMean_length (span minp : Nat) (l : TiCol) :
    (ewmMean span minp l).length = l.length :=
  ewmGo_length _ _ _ _ _

theorem cumsumGo_length (acc : ℚ) :
    ∀ l : TiCol, (cumsumGo acc l).length = l.length
  | [] => rfl
  | none :: xs => by
      simp only [cumsumGo, List.length_cons, cumsumGo_length acc xs]
  | some v :: xs => by
      simp only [cumsumGo, List.length_cons, cumsumGo_length _ xs]

theorem cumsumL_length (l : TiCol) : (cumsumL l).length = l.length :=
  cumsumGo_length _ _

/-! ### Causality (prefix commutation) of the pandas primitives -/

theorem vals_take (l : List ℚ) (n : Nat) :
    vals (l.take n) = (vals l).take n := by
  rw [vals, vals, List.map_take]

theorem shiftL_take (p : Nat) (l : TiCol) (n : Nat) :
    shiftL p (l.take n) = (shiftL p l).take n := by
  rw [shiftL, shiftL, List.length_take]
  apply take_rangeMap
  intro j hj
  have hjn : j < n := lt_of_lt_of_le hj (min_le_left _ _)
  by_cases hp : p ≤ j
  · rw [if_pos hp, if_pos hp, getD_take (lt_of_le_of_lt (Nat.sub_le j p) hjn)]
  · rw [if_neg hp, if_neg hp]

theorem diffL_take (p : Nat) (l : TiCol) (n : Nat) :
    diffL p (l.take n) = (diffL p l).take n := by
  rw [diffL, diffL, List.length_take]
  apply take_rangeMap
  intro j hj
  have hjn : j < n := lt_of_lt_of_le hj (min_le_left _ _)
  by_cases hp : p ≤ j
  · rw [if_pos hp, if_pos hp, getD_take hjn,
      getD_take (lt_of_le_of_lt (Nat.sub_le j p) hjn)]
  · rw [if_neg hp, if_neg hp]

theorem rollingSum_take (w : Nat) (l : TiCol) (n : Nat) :
    rollingSum w (l.take n) = (rollingSum w l).take n := by
  rw [rollingSum, rollingSum, List.length_take]
  apply take_rangeMap
  intro j hj
  have hjn : j < n := lt_of_lt_of_le hj (min_le_left _ _)
  rw [List.take_take, Nat.min_eq_left (Nat.succ_le_of_lt hjn)]

theorem ewmGo_take (al : ℚ) (minp : Nat) :
    ∀ (l : TiCol) (m : Option ℚ) (cnt n : Nat),
      ewmGo al minp m cnt (l.take n) = (ewmGo al minp m cnt l).take n
  | [], _, _, n => by simp [ewmGo]
  | x :: xs, m, cnt, 0 => by simp [ewmGo]
  | none :: xs, m, cnt, n + 1 => by
      rw [List.take_succ_cons]
      simp only [ewmGo, List.take_succ_cons, ewmGo_take al minp xs]
  | some v :: xs, m, cnt, n + 1 => by
      rw [List.take_succ_cons]
      simp only [ewmGo, List.take_succ_cons, ewmGo_take al minp xs]

theorem ewmMean_take (span minp : Nat) (l : TiCol) (n : Nat) :
    ewmMean span minp (l.take n) = (ewmMean span minp l).take n :=
  ewmGo_take _ _ _ _ _ _

theorem cumsumGo_take (acc : ℚ) :
    ∀ (l : TiCol) (n : Nat),
      cumsumGo acc (l.take n) = (cumsumGo acc l).take n
  | [], n => by simp [cumsumGo]
  | x :: xs, 0 => by simp [cumsumGo]
  | none :: xs, n + 1 => by
      rw [List.take_succ_cons]
      simp only [cumsumGo, List.take_succ_cons, cumsumGo_take acc xs]
  | some v :: xs, n + 1 => by
      rw [List.take_succ_cons]
      simp only [cumsumGo, List.take_succ_cons, cumsumGo_take _ xs]

theorem cumsumL_take (l : TiCol) (n : Nat) :
    cumsumL (l.take n) = (cumsumL l).take n :=
  cumsumGo_take _ _ _

end TTI

namespace TTI

/-! ### Prefix lemmas for the Parabolic SAR recursion -/

theorem sliceMax_take {l : List ℚ} {n a b : Nat} (h : b ≤ n) :
    sliceMax (l.take n) a b = sliceMax l a b := by
  rw [sliceMax, sliceMax, List.take_take, Nat.min_eq_left h]

theorem sliceMin_take {l : List ℚ} {n a b : Nat} (h : b ≤ n) :
    sliceMin (l.take n) a b = sliceMin l a b := by
  rw [sliceMin, sliceMin, List.take_take, Nat.min_eq_left h]

theorem getElemq_take {α : Type} {l : List α} {n j : Nat} (h : j < n) :
    (l.take n)[j]? = l[j]? := by
  rw [List.getElem?_take, if_pos h]

theorem calcSarRow_take_flip {inp : InputData} {n ci psi : Nat}
    {prev : SarRow} (hn : 2 ≤ n) (hci : ci < n) :
    calcSarRow (inp.take n) ci psi prev true =
      calcSarRow inp ci psi prev true := by
  have eh0 : ((inp.take n).high)[0]? = inp.high[0]? :=
    getElemq_take (by omega)
  have eh1 : ((inp.take n).high)[1]? = inp.high[1]? :=
    getElemq_take (by omega)
  have el0 : ((inp.take n).low)[0]? = inp.low[0]? :=
    getElemq_take (by omega)
  have ehc : ((inp.take n).high)[ci]? = inp.high[ci]? :=
    getElemq_take hci
  have elc : ((inp.take n).low)[ci]? = inp.low[ci]? :=
    getElemq_take hci
  have esmx : ∀ a, sliceMax ((inp.take n).high) a ci = sliceMax inp.high a ci :=
    fun a => sliceMax_take (le_of_lt hci)
  have esmn : ∀ a, sliceMin ((inp.take n).low) a ci = sliceMin inp.low a ci :=
    fun a => sliceMin_take (le_of_lt hci)
  rw [calcSarRow.eq_def]
  conv_rhs => rw [calcSarRow.eq_def]
  by_cases h0 : ci = 0
  · subst h0
    simp [eh0, eh1, el0]
  · cases hp : prev.position <;> simp [h0, hp, ehc, elc, esmx, esmn]

theorem calcSarRow_take {inp : InputData} {n ci psi : Nat} {prev : SarRow}
    {pc : Bool} (hn : 2 ≤ n) (hci : ci < n) :
    calcSarRow (inp.take n) ci psi prev pc = calcSarRow inp ci psi prev pc := by
  have eh0 : ((inp.take n).high)[0]? = inp.high[0]? :=
    getElemq_take (by omega)
  have eh1 : ((inp.take n).high)[1]? = inp.high[1]? :=
    getElemq_take (by omega)
  have el0 : ((inp.take n).low)[0]? = inp.low[0]? :=
    getElemq_take (by omega)
  have ehc : ((inp.take n).high)[ci]? = inp.high[ci]? :=
    getElemq_take hci
  have elc : ((inp.take n).low)[ci]? = inp.low[ci]? :=
    getElemq_take hci
  have esmx : ∀ a, sliceMax ((inp.take n).high) a ci = sliceMax inp.high a ci :=
    fun a => sliceMax_take (le_of_lt hci)
  have esmn : ∀ a, sliceMin ((inp.take n).low) a ci = sliceMin inp.low a ci :=
    fun a => sliceMin_take (le_of_lt hci)
  have esmx1 : ∀ a, sliceMax ((inp.take n).high) a (ci + 1) =
      sliceMax inp.high a (ci + 1) := fun a => sliceMax_take hci
  have esmn1 : ∀ a, sliceMin ((inp.take n).low) a (ci + 1) =
      sliceMin inp.low a (ci + 1) := fun a => sliceMin_take hci
  cases pc with
  | true => exact calcSarRow_take_flip hn hci
  | false =>
      have hflip : calcSarRow (inp.take n) ci psi prev true =
          calcSarRow inp ci psi prev true := calcSarRow_take_flip hn hci
      rw [calcSarRow.eq_def]
      conv_rhs => rw [calcSarRow.eq_def]
      by_cases h0 : ci = 0
      · subst h0
        simp [eh0, eh1, el0]
      · cases hp : prev.position <;>
          simp [h0, hp, ehc, elc, esmx, esmn, esmx1, esmn1, hflip]

theorem sarRowsGo_take {inp : InputData} {n : Nat} (hn : 2 ≤ n) :
    ∀ (k i psi : Nat) (prev : SarRow), i + k ≤ n →
      sarRowsGo (inp.take n) i prev psi k = sarRowsGo inp i prev psi k
  | 0, _, _, _, _ => rfl
  | k + 1, i, psi, prev, h => by
      simp only [sarRowsGo]
      rw [calcSarRow_take hn (by omega)]
      rw [sarRowsGo_take hn k (i + 1) _ _ (by omega)]

theorem sarRowsGo_take_count (inp : InputData) :
    ∀ (k m i psi : Nat) (prev : SarRow),
      (sarRowsGo inp i prev psi k).take m = sarRowsGo inp i prev psi (min m k)
  | 0, m, _, _, _ => by simp [sarRowsGo]
  | k + 1, 0, i, psi, prev => by simp [sarRowsGo]
  | k + 1, m + 1, i, psi, prev => by
      simp only [sarRowsGo, List.take_succ_cons, Nat.succ_min_succ]
      rw [sarRowsGo_take_count inp k m]

theorem sarRowsGo_length (inp : InputData) :
    ∀ (k i psi : Nat) (prev : SarRow),
      (sarRowsGo inp i prev psi k).length = k
  | 0, _, _, _ => rfl
  | k + 1, i, psi, prev => by
      simp only [sarRowsGo, List.length_cons, sarRowsGo_length inp k]

theorem sarRows_length (inp : InputData) : (sarRows inp).length = inp.len :=
  sarRowsGo_length inp _ _ _ _

theorem sarRows_take {inp : InputData} {n : Nat} (hn : 2 ≤ n)
    (hle : n ≤ inp.len) :
    sarRows (inp.take n) = (sarRows inp).take n := by
  have hlen : (inp.take n).len = n := by
    simp only [InputData.len] at hle
    simp only [InputData.len, InputData.take, List.length_take]
    omega
  rw [sarRows, sarRows, hlen, sarRowsGo_take_count inp inp.len n,
    Nat.min_eq_left hle]
  exact sarRowsGo_take hn n 0 0 default (by omega)

end TTI

namespace TTI

/-! ### Lengths and causality of the indicator calculations -/

theorem inputTakeLen {inp : InputData} {n : Nat} (h : n ≤ inp.len) :
    (inp.take n).len = n := by
  simp only [InputData.len] at h
  simp only [InputData.len, InputData.take, List.length_take]
  omega

theorem momentumCalc_take (p : Nat) (inp : InputData) (n : Nat) :
    momentumCalc p (inp.take n) =
      some ((diffL p (vals inp.close)).take n) := by
  rw [momentumCalc]
  show some (diffL p (vals (inp.close.take n))) = _
  rw [vals_take, diffL_take]

theorem rsiCalc_take (p : Nat) (inp : InputData) (n : Nat) {td : TiCol}
    (h : rsiCalc p inp = some td) :
    rsiCalc p (inp.take n) = some (td.take n) := by
  simp only [rsiCalc, Option.some.injEq] at h ⊢
  rw [← h]
  show List.zipWith oDiv
      (rollingSum p ((diffL 1 (vals (inp.close.take n))).map _))
      (rollingSum p ((diffL 1 (vals (inp.close.take n))).map _)) = _
  rw [vals_take, diffL_take, List.map_take, List.map_take,
    rollingSum_take, rollingSum_take, ← List.take_zipWith]

theorem vrocCalc_length {p : Nat} {inp : InputData} {td : TiCol}
    (hs : inp.sameLen) (h : vrocCalc p inp = some td) :
    td.length = inp.len := by
  rw [vrocCalc] at h
  by_cases hc : inp.len < p
  · rw [if_pos hc] at h; exact absurd h (by simp)
  · rw [if_neg hc] at h
    obtain ⟨hh, hl, hv⟩ := hs
    simp only [Option.some.injEq] at h
    rw [← h, List.length_map, List.length_zipWith, List.length_zipWith,
      shiftL_length, vals_length, InputData.len, ← hv]
    omega

end TTI

namespace TTI

theorem take_rangeMapLe {β : Type} {f g : Nat → β} {len n : Nat}
    (hn : n ≤ len) (h : ∀ j, j < n → f j = g j) :
    (List.range n).map f = ((List.range len).map g).take n := by
  have := @take_rangeMap β f g len n
    fun j hj => h j (lt_of_lt_of_le hj (min_le_left _ _))
  rwa [Nat.min_eq_left hn] at this

theorem vrocCalc_take {p : Nat} {inp : InputData} {td : TiCol} {n : Nat}
    (hp : p ≤ n) (hn : n ≤ inp.len) (h : vrocCalc p inp = some td) :
    vrocCalc p (inp.take n) = some (td.take n) := by
  rw [vrocCalc] at h
  by_cases hc : inp.len < p
  · rw [if_pos hc] at h; exact absurd h (by simp)
  rw [if_neg hc] at h
  simp only [Option.some.injEq] at h
  rw [vrocCalc, inputTakeLen hn, if_neg (by omega), ← h]
  show some ((List.zipWith oDiv
      (List.zipWith oSub (vals (inp.volume.take n))
        (shiftL p (vals (inp.volume.take n))))
      (shiftL p (vals (inp.volume.take n)))).map _) = _
  rw [vals_take, shiftL_take, ← List.take_zipWith, ← List.take_zipWith,
    List.map_take]

theorem temaCalc_take {p : Nat} {inp : InputData} {td : TiCol} {n : Nat}
    (hp : p ≤ n) (hn : n ≤ inp.len) (h : temaCalc p inp = some td) :
    temaCalc p (inp.take n) = some (td.take n) := by
  rw [temaCalc] at h
  by_cases hc : inp.len < p
  · rw [if_pos hc] at h; exact absurd h (by simp)
  rw [if_neg hc] at h
  simp only [Option.some.injEq] at h
  rw [temaCalc, inputTakeLen hn, if_neg (by omega), ← h]
  show some (List.zipWith oAdd
      (List.zipWith oSub
        ((ewmMean p p (vals (inp.close.take n))).map _)
        ((ewmMean p p (ewmMean p p (vals (inp.close.take n)))).map _))
      (ewmMean p p (ewmMean p p (ewmMean p p (vals (inp.close.take n)))))) = _
  rw [vals_take, ewmMean_take, ewmMean_take, ewmMean_take, List.map_take,
    List.map_take, ← List.take_zipWith, ← List.take_zipWith]

theorem chaikinCalc_take {ws wl : Nat} {inp : InputData} {td : TiCol}
    {n : Nat} (h10 : 10 ≤ n) (hn : n ≤ inp.len)
    (h : chaikinCalc ws wl inp = some td) :
    chaikinCalc ws wl (inp.take n) = some (td.take n) := by
  rw [chaikinCalc] at h
  by_cases hc : inp.len < 10
  · rw [if_pos hc] at h; exact absurd h (by simp)
  rw [if_neg hc] at h
  simp only [Option.some.injEq] at h
  rw [chaikinCalc, inputTakeLen hn, if_neg (by omega), ← h]
  have hadl : (List.range n).map (fun j =>
      (inp.take n).volume.getD j 0 *
        (((inp.take n).close.getD j 0 - (inp.take n).low.getD j 0) -
          ((inp.take n).high.getD j 0 - (inp.take n).close.getD j 0)) /
        ((inp.take n).high.getD j 0 - (inp.take n).low.getD j 0)) =
      ((List.range inp.len).map (fun j =>
        inp.volume.getD j 0 *
          ((inp.close.getD j 0 - inp.low.getD j 0) -
            (inp.high.getD j 0 - inp.close.getD j 0)) /
          (inp.high.getD j 0 - inp.low.getD j 0))).take n := by
    apply take_rangeMapLe hn
    intro j hj
    show (inp.volume.take n).getD j 0 * (((inp.close.take n).getD j 0 -
        (inp.low.take n).getD j 0) - ((inp.high.take n).getD j 0 -
        (inp.close.take n).getD j 0)) / ((inp.high.take n).getD j 0 -
        (inp.low.take n).getD j 0) = _
    rw [getD_take hj, getD_take hj, getD_take hj, getD_take hj]
  simp only [hadl, vals_take, cumsumL_take, ewmMean_take, ← List.take_zipWith]

theorem parabolicSarCalc_take {inp : InputData} {td : TiCol} {n : Nat}
    (h2 : 2 ≤ n) (hn : n ≤ inp.len) (h : parabolicSarCalc inp = some td) :
    parabolicSarCalc (inp.take n) = some (td.take n) := by
  rw [parabolicSarCalc] at h
  by_cases hc : inp.len < 2
  · rw [if_pos hc] at h; exact absurd h (by simp)
  rw [if_neg hc] at h
  simp only [Option.some.injEq] at h
  rw [parabolicSarCalc, inputTakeLen hn, if_neg (by omega),
    sarRows_take h2 hn, List.map_take, h]

end TTI

namespace TTI

theorem momentumCalc_length {p : Nat} {inp : InputData} {td : TiCol}
    (h : momentumCalc p inp = some td) : td.length = inp.len := by
  simp only [momentumCalc, Option.some.injEq] at h
  rw [← h, diffL_length, vals_length]; rfl

theorem rsiCalc_length {p : Nat} {inp : InputData} {td : TiCol}
    (h : rsiCalc p inp = some td) : td.length = inp.len := by
  simp only [rsiCalc, Option.some.injEq] at h
  rw [← h, List.length_zipWith, rollingSum_length, rollingSum_length,
    List.length_map, List.length_map, diffL_length, vals_length]
  simp [InputData.len]

theorem temaCalc_length {p : Nat} {inp : InputData} {td : TiCol}
    (h : temaCalc p inp = some td) : td.length = inp.len := by
  rw [temaCalc] at h
  by_cases hc : inp.len < p
  · rw [if_pos hc] at h; exact absurd h (by simp)
  rw [if_neg hc] at h
  simp only [Option.some.injEq] at h
  rw [← h]
  simp [List.length_zipWith, List.length_map, ewmMean_length, vals_length,
    InputData.len]

theorem chaikinCalc_length {ws wl : Nat} {inp : InputData} {td : TiCol}
    (h : chaikinCalc ws wl inp = some td) : td.length = inp.len := by
  rw [chaikinCalc] at h
  by_cases hc : inp.len < 10
  · rw [if_pos hc] at h; exact absurd h (by simp)
  rw [if_neg hc] at h
  simp only [Option.some.injEq] at h
  rw [← h, List.length_zipWith, ewmMean_length, ewmMean_length, cumsumL_length,
    vals_length, List.length_map, List.length_range]
  simp

theorem parabolicSarCalc_length {inp : InputData} {td : TiCol}
    (h : parabolicSarCalc inp = some td) : td.length = inp.len := by
  rw [parabolicSarCalc] at h
  by_cases hc : inp.len < 2
  · rw [if_pos hc] at h; exact absurd h (by simp)
  rw [if_neg hc] at h
  simp only [Option.some.injEq] at h
  rw [← h, List.length_map, sarRows_length]

theorem calcTi_length {ind : SupportedIndicator} {inp : InputData}
    {td : TiCol} (hs : inp.sameLen) (h : calcTi ind inp = some td) :
    td.length = inp.len := by
  cases ind with
  | ParabolicSAR => exact parabolicSarCalc_length h
  | ChaikinOscillator ws wl => exact chaikinCalc_length h
  | Momentum p => exact momentumCalc_length h
  | RelativeStrengthIndex p => exact rsiCalc_length h
  | TripleExponentialMovingAverage p => exact temaCalc_length h
  | VolumeRateOfChange p => exact vrocCalc_length hs h

/-! ### NaN entries in the warm-up region -/

theorem oSub_none_right (a : Option ℚ) : oSub a none = none := by
  cases a <;> rfl

theorem oSub_none_left (b : Option ℚ) : oSub none b = none := by
  cases b <;> rfl

theorem oAdd_none_left (b : Option ℚ) : oAdd none b = none := by
  cases b <;> rfl

theorem oDiv_none_left (b : Option ℚ) : oDiv none b = none := by
  cases b <;> rfl

theorem shiftL_entry_none {p : Nat} {l : TiCol} {j : Nat}
    (hj : j < l.length) (hjp : j < p) : (shiftL p l)[j]? = some none := by
  rw [shiftL, List.getElem?_map, List.getElem?_range hj]
  show some (if p ≤ j then l.getD (j - p) none else none) = some none
  rw [if_neg (by omega)]

theorem vroc_entry_none {p : Nat} {inp : InputData} {td : TiCol} {j : Nat}
    (hs : inp.sameLen) (h : vrocCalc p inp = some td) (hj : j < inp.len)
    (hjp : j < p) : td[j]? = some none := by
  rw [vrocCalc] at h
  by_cases hc : inp.len < p
  · rw [if_pos hc] at h; exact absurd h (by simp)
  rw [if_neg hc] at h
  simp only [Option.some.injEq] at h
  obtain ⟨_, _, hv⟩ := hs
  have hjv : j < (vals inp.volume).length := by
    rw [vals_length, hv]; exact hj
  have hsh : (shiftL p (vals inp.volume))[j]? = some none :=
    shiftL_entry_none hjv hjp
  obtain ⟨x, hx⟩ : ∃ x, (vals inp.volume)[j]? = some x :=
    ⟨(vals inp.volume).get ⟨j, hjv⟩, List.getElem?_eq_getElem hjv⟩
  rw [← h, List.getElem?_map, List.getElem?_zipWith, List.getElem?_zipWith,
    hx, hsh]
  simp [oSub_none_right, oDiv_none_left]

theorem ewmGo_vals_entry_none (al : ℚ) (minp : Nat) :
    ∀ (l : List ℚ) (m : Option ℚ) (cnt j : Nat), j < l.length →
      cnt + j + 1 < minp → (ewmGo al minp m cnt (vals l))[j]? = some none
  | [], _, _, j, hj, _ => absurd hj (by simp)
  | x :: xs, m, cnt, 0, _, hlt => by
      simp only [vals, List.map_cons, ewmGo, List.getElem?_cons_zero,
        Option.some.injEq]
      rw [if_neg (by omega)]
  | x :: xs, m, cnt, j + 1, hj, hlt => by
      simp only [vals, List.map_cons, ewmGo, List.getElem?_cons_succ]
      exact ewmGo_vals_entry_none al minp xs _ _ j
        (by simpa using Nat.lt_of_succ_lt_succ hj) (by omega)

theorem tema_entry_none {p : Nat} {inp : InputData} {td : TiCol} {j : Nat}
    (h : temaCalc p inp = some td) (hj : j < inp.len) (hjp : j + 1 < p) :
    td[j]? = some none := by
  rw [temaCalc] at h
  by_cases hc : inp.len < p
  · rw [if_pos hc] at h; exact absurd h (by simp)
  rw [if_neg hc] at h
  simp only [Option.some.injEq] at h
  have he1 : (ewmMean p p (vals inp.close))[j]? = some none :=
    ewmGo_vals_entry_none _ p inp.close none 0 j hj (by omega)
  have hlen1 : (ewmMean p p (vals inp.close)).length = inp.len := by
    rw [ewmMean_length, vals_length]; rfl
  have hlen2 : (ewmMean p p (ewmMean p p (vals inp.close))).length = inp.len := by
    rw [ewmMean_length, hlen1]
  have hlen3 : (ewmMean p p (ewmMean p p (ewmMean p p (vals inp.close)))).length
      = inp.len := by rw [ewmMean_length, hlen2]
  obtain ⟨y, hy⟩ : ∃ y,
      ((ewmMean p p (ewmMean p p (vals inp.close))).map
        (Option.map (3 * ·)))[j]? = some y :=
    ⟨_, List.getElem?_eq_getElem (by rw [List.length_map, hlen2]; exact hj)⟩
  obtain ⟨z, hz⟩ : ∃ z,
      (ewmMean p p (ewmMean p p (ewmMean p p (vals inp.close))))[j]? = some z :=
    ⟨_, List.getElem?_eq_getElem (by rw [hlen3]; exact hj)⟩
  rw [← h, List.getElem?_zipWith, List.getElem?_zipWith, List.getElem?_map,
    he1, hy, hz]
  simp [oSub_none_left, oAdd_none_left]

end TTI

namespace TTI

/-! ### HOLD on NaN at the last row -/

theorem oGT_none_right (a : Option ℚ) : oGT a none = false := by
  cases a <;> rfl

theorem oLT_none_right (a : Option ℚ) : oLT a none = false := by
  cases a <;> rfl

theorem oGT_none_left (b : Option ℚ) : oGT none b = false := by
  cases b <;> rfl

theorem oLT_none_left (b : Option ℚ) : oLT none b = false := by
  cases b <;> rfl

theorem iat1_take_entry {l : TiCol} {i : Nat} (hi : i < l.length)
    (h : l[i]? = some none) : iat1 (l.take (i + 1)) = none := by
  rw [iat1, List.length_take, Nat.min_eq_left (by omega)]
  show (l.take (i + 1)).getD (i + 1 - 1) none = none
  rw [Nat.add_sub_cancel, getD_take (by omega), List.getD_eq_getElem?_getD, h]
  rfl

theorem vrocSignal_hold_of_none {ti : TiCol} (h : iat1 ti = none) :
    vrocSignal ti = TRADE_SIGNALS "hold" := by
  rw [vrocSignal]
  by_cases hl : ti.length < 3
  · rw [if_pos hl]
  · rw [if_neg hl, h]
    simp [oGT_none_right, oLT_none_right]

theorem temaSignal_hold_of_none {inp : InputData} {ti : TiCol}
    (h : iat1 ti = none) : temaSignal inp ti = TRADE_SIGNALS "hold" := by
  rw [temaSignal]
  by_cases hl : ti.length < 1
  · rw [if_pos hl]
  · rw [if_neg hl, h]
    simp [oGT_none_right, oLT_none_right]

/-! ### The walk-forward equivalence, indicator by indicator -/

theorem getSignalsSequence_getD {ind : SupportedIndicator} {inp : InputData}
    {td : TiCol} {i : Nat} (hi : i < td.length) :
    (getSignalsSequence ind inp td).getD i 0 =
      (getTiSignal ind (inp.take (i + 1)) (td.take (i + 1))).2 := by
  rw [getSignalsSequence, List.getD_eq_getElem?_getD, List.getElem?_map,
    List.getElem?_range hi]
  rfl

theorem take_length_lt {α : Type} {l : List α} {n m : Nat} (hn : n ≤ l.length)
    (hm : n < m) : (l.take n).length < m := by
  rw [List.length_take]
  omega

end TTI

namespace TTI

theorem walkForwardPsar {inp : InputData} {td : TiCol} (hs : inp.sameLen)
    (h : parabolicSarCalc inp = some td) {i : Nat} (hi : i < inp.len) :
    (getTiSignal .ParabolicSAR (inp.take (i + 1)) (td.take (i + 1))).2 =
      (freshTiSignal .ParabolicSAR inp i).2 := by
  have htl : td.length = inp.len := parabolicSarCalc_length h
  rw [freshTiSignal]
  simp only [calcTi]
  by_cases h2 : i + 1 < 2
  · have hnone : parabolicSarCalc (inp.take (i + 1)) = none := by
      rw [parabolicSarCalc, inputTakeLen (by omega), if_pos (by omega)]
    rw [hnone]
    show (parabolicSarSignal (inp.take (i + 1)) (td.take (i + 1))).2 = _
    rw [parabolicSarSignal, if_pos (take_length_lt (by omega) (by omega))]
  · rw [parabolicSarCalc_take (by omega) (by omega) h]

theorem walkForwardMomentum {p : Nat} {inp : InputData} {td : TiCol}
    (h : momentumCalc p inp = some td) {i : Nat} (hi : i < inp.len) :
    (getTiSignal (.Momentum p) (inp.take (i + 1)) (td.take (i + 1))).2 =
      (freshTiSignal (.Momentum p) inp i).2 := by
  rw [freshTiSignal]
  simp only [calcTi]
  simp only [momentumCalc, Option.some.injEq] at h
  rw [momentumCalc_take, h]

theorem walkForwardRsi {p : Nat} {inp : InputData} {td : TiCol}
    (h : rsiCalc p inp = some td) {i : Nat} (hi : i < inp.len) :
    (getTiSignal (.RelativeStrengthIndex p) (inp.take (i + 1))
        (td.take (i + 1))).2 =
      (freshTiSignal (.RelativeStrengthIndex p) inp i).2 := by
  rw [freshTiSignal]
  simp only [calcTi]
  rw [rsiCalc_take p inp (i + 1) h]

theorem walkForwardVroc {p : Nat} {inp : InputData} {td : TiCol}
    (hs : inp.sameLen) (h : vrocCalc p inp = some td) {i : Nat}
    (hi : i < inp.len) :
    (getTiSignal (.VolumeRateOfChange p) (inp.take (i + 1))
        (td.take (i + 1))).2 =
      (freshTiSignal (.VolumeRateOfChange p) inp i).2 := by
  have htl : td.length = inp.len := vrocCalc_length hs h
  rw [freshTiSignal]
  simp only [calcTi]
  by_cases hp : i + 1 < p
  · have hnone : vrocCalc p (inp.take (i + 1)) = none := by
      rw [vrocCalc, inputTakeLen (by omega), if_pos (by omega)]
    rw [hnone]
    show (vrocSignal (td.take (i + 1))).2 = _
    have hhold : vrocSignal (td.take (i + 1)) = TRADE_SIGNALS "hold" := by
      by_cases h3 : i + 1 < 3
      · rw [vrocSignal, if_pos (take_length_lt (by omega) (by omega))]
      · exact vrocSignal_hold_of_none
          (iat1_take_entry (by omega) (vroc_entry_none hs h hi (by omega)))
    rw [hhold]
  · rw [vrocCalc_take (by omega) (by omega) h]

theorem walkForwardTema {p : Nat} {inp : InputData} {td : TiCol}
    (hs : inp.sameLen) (h : temaCalc p inp = some td) {i : Nat}
    (hi : i < inp.len) :
    (getTiSignal (.TripleExponentialMovingAverage p) (inp.take (i + 1))
        (td.take (i + 1))).2 =
      (freshTiSignal (.TripleExponentialMovingAverage p) inp i).2 := by
  have htl : td.length = inp.len := temaCalc_length h
  rw [freshTiSignal]
  simp only [calcTi]
  by_cases hp : i + 1 < p
  · have hnone : temaCalc p (inp.take (i + 1)) = none := by
      rw [temaCalc, inputTakeLen (by omega), if_pos (by omega)]
    rw [hnone]
    show (temaSignal (inp.take (i + 1)) (td.take (i + 1))).2 = _
    rw [temaSignal_hold_of_none
      (iat1_take_entry (by omega) (tema_entry_none h hi (by omega)))]
  · rw [temaCalc_take (by omega) (by omega) h]

theorem walkForwardChaikin {ws wl : Nat} {inp : InputData} {td : TiCol}
    (hs : inp.sameLen) (h : chaikinCalc ws wl inp = some td) {i : Nat}
    (hi : i < inp.len) :
    (getTiSignal (.ChaikinOscillator ws wl) (inp.take (i + 1))
        (td.take (i + 1))).2 =
      (freshTiSignal (.ChaikinOscillator ws wl) inp i).2 := by
  have htl : td.length = inp.len := chaikinCalc_length h
  rw [freshTiSignal]
  simp only [calcTi]
  by_cases hp : i + 1 < 10
  · have hnone : chaikinCalc ws wl (inp.take (i + 1)) = none := by
      rw [chaikinCalc, inputTakeLen (by omega), if_pos (by omega)]
    rw [hnone]
    show (chaikinSignal (inp.take (i + 1)) (td.take (i + 1))).2 = _
    rw [chaikinSignal, if_pos (take_length_lt (by omega) (by omega))]
  · rw [chaikinCalc_take (by omega) (by omega) h]

end TTI

namespace TTI

/-- C1: Walk-forward equivalence.  For every supported indicator and every
index `i` in `0..N-1`, the signal stored at row `i` by
`MachineLearningData._getSignalsSequence` (which substitutes the
indicator's `_input_data` and `_ti_data` with their restrictions to the
prefix ending at index `i` and then calls `getTiSignal`) equals the signal
obtained by computing TiData fresh on the prefix `0..i` alone and calling
`getTiSignal` on it, where indices whose prefix is shorter than the
formula's calculation minimum are defined as HOLD (0) by convention. -/
theorem C1_walk_forward_equivalence (ind : SupportedIndicator)
    (inp : InputData) (td : TiCol) (hs : inp.sameLen)
    (h : calcTi ind inp = some td) (i : Nat) (hi : i < inp.len) :
    (getSignalsSequence ind inp td).getD i 0 = (freshTiSignal ind inp i).2 := by
  have htl : td.length = inp.len := calcTi_length hs h
  rw [getSignalsSequence_getD (by omega)]
  cases ind with
  | ParabolicSAR => exact walkForwardPsar hs h hi
  | ChaikinOscillator ws wl => exact walkForwardChaikin hs h hi
  | Momentum p => exact walkForwardMomentum h hi
  | RelativeStrengthIndex p => exact walkForwardRsi h hi
  | TripleExponentialMovingAverage p => exact walkForwardTema hs h hi
  | VolumeRateOfChange p => exact walkForwardVroc hs h hi

/-- Witness for C1 at a concrete input: a one-row series with the Momentum
indicator. -/
theorem C1_walk_forward_equivalence_witness :
    InputData.sameLen ⟨[1], [1], [1], [1]⟩ ∧
      calcTi (.Momentum 1) ⟨[1], [1], [1], [1]⟩ = some [none] ∧
      0 < InputData.len ⟨[1], [1], [1], [1]⟩ ∧
      (getSignalsSequence (.Momentum 1) ⟨[1], [1], [1], [1]⟩ [none]).getD 0 0 =
        (freshTiSignal (.Momentum 1) ⟨[1], [1], [1], [1]⟩ 0).2 :=
  ⟨by decide, by decide, by decide,
    C1_walk_forward_equivalence (.Momentum 1) ⟨[1], [1], [1], [1]⟩ [none]
      (by decide) (by decide) 0 (by decide)⟩

end TTI

namespace TTI

/-- C4: HOLD floor.  For every supported indicator formula and every state
whose computed TiData has fewer rows than the formula's minimum signal
lookback, `getTiSignal` returns `('hold', 0)` rather than raising or
returning a buy/sell signal. -/
theorem C4_hold_floor (ind : SupportedIndicator) (inp : InputData)
    (ti : TiCol) (h : ti.length < signalMin ind) :
    getTiSignal ind inp ti = ("hold", 0) := by
  cases ind with
  | ParabolicSAR =>
      show parabolicSarSignal inp ti = _
      rw [parabolicSarSignal, if_pos (by simpa [signalMin] using h)]
      rfl
  | ChaikinOscillator ws wl =>
      show chaikinSignal inp ti = _
      rw [chaikinSignal, if_pos (by simpa [signalMin] using h)]
      rfl
  | Momentum p =>
      show momentumSignal ti = _
      rw [momentumSignal, if_pos (by simpa [signalMin] using h)]
      rfl
  | RelativeStrengthIndex p =>
      show rsiSignal ti = _
      rw [rsiSignal, if_pos (by simpa [signalMin] using h)]
      rfl
  | TripleExponentialMovingAverage p =>
      show temaSignal inp ti = _
      rw [temaSignal, if_pos (by simpa [signalMin] using h)]
      rfl
  | VolumeRateOfChange p =>
      show vrocSignal ti = _
      rw [vrocSignal, if_pos (by simpa [signalMin] using h)]
      rfl

/-- Witness for C4: the Chaikin Oscillator on an 89-row TiData (one short
of its 90-row signal minimum). -/
theorem C4_hold_floor_witness :
    (List.replicate 89 (some (1 : ℚ)) : TiCol).length <
        signalMin (.ChaikinOscillator 3 10) ∧
      getTiSignal (.ChaikinOscillator 3 10) ⟨[], [], [], []⟩
        (List.replicate 89 (some 1)) = ("hold", 0) :=
  ⟨by decide, C4_hold_floor (.ChaikinOscillator 3 10) ⟨[], [], [], []⟩
    (List.replicate 89 (some 1)) (by decide)⟩

end TTI

namespace TTI

/-! ### C5: how far back each signal rule looks -/

/-- The last two rows of a series (all of it when shorter). -/
def lastTwo {α : Type} (l : List α) : List α := l.drop (l.length - 2)

/-- The last three rows of a series (all of it when shorter). -/
def lastThree {α : Type} (l : List α) : List α := l.drop (l.length - 3)

/-- Two input series agreeing on their last two rows, column by column. -/
def agreeLastTwo (a b : InputData) : Prop :=
  lastTwo a.high = lastTwo b.high ∧ lastTwo a.low = lastTwo b.low ∧
    lastTwo a.close = lastTwo b.close ∧ lastTwo a.volume = lastTwo b.volume

instance (a b : InputData) : Decidable (agreeLastTwo a b) := by
  unfold agreeLastTwo; infer_instance

theorem lastTwo_length {α : Type} (l : List α) :
    (lastTwo l).length = min 2 l.length := by
  rw [lastTwo, List.length_drop]; omega

theorem lastThree_length {α : Type} (l : List α) :
    (lastThree l).length = min 3 l.length := by
  rw [lastThree, List.length_drop]; omega

theorem iat1_lastTwo {α : Type} [Inhabited α] (l : List α) :
    iat1 (lastTwo l) = iat1 l := by
  rw [iat1, iat1, lastTwo, List.length_drop, List.getD_eq_getElem?_getD,
    List.getD_eq_getElem?_getD, List.getElem?_drop]
  have e : l.length - 2 + (l.length - (l.length - 2) - 1) =
      l.length - 1 := by omega
  rw [e]

theorem iat2_lastTwo {α : Type} [Inhabited α] (l : List α) :
    iat2 (lastTwo l) = iat2 l := by
  rw [iat2, iat2, lastTwo, List.length_drop, List.getD_eq_getElem?_getD,
    List.getD_eq_getElem?_getD, List.getElem?_drop]
  have e : l.length - 2 + (l.length - (l.length - 2) - 2) =
      l.length - 2 := by omega
  rw [e]

theorem iat1_lastThree {α : Type} [Inhabited α] (l : List α) :
    iat1 (lastThree l) = iat1 l := by
  rw [iat1, iat1, lastThree, List.length_drop, List.getD_eq_getElem?_getD,
    List.getD_eq_getElem?_getD, List.getElem?_drop]
  have e : l.length - 3 + (l.length - (l.length - 3) - 1) =
      l.length - 1 := by omega
  rw [e]

theorem iat2_lastThree {α : Type} [Inhabited α] (l : List α) :
    iat2 (lastThree l) = iat2 l := by
  rw [iat2, iat2, lastThree, List.length_drop, List.getD_eq_getElem?_getD,
    List.getD_eq_getElem?_getD, List.getElem?_drop]
  have e : l.length - 3 + (l.length - (l.length - 3) - 2) =
      l.length - 2 := by omega
  rw [e]

theorem iat3_lastThree {α : Type} [Inhabited α] (l : List α) :
    iat3 (lastThree l) = iat3 l := by
  rw [iat3, iat3, lastThree, List.length_drop, List.getD_eq_getElem?_getD,
    List.getD_eq_getElem?_getD, List.getElem?_drop]
  have e : l.length - 3 + (l.length - (l.length - 3) - 3) =
      l.length - 3 := by omega
  rw [e]

end TTI

namespace TTI

/-- C5 counterexample: two `VolumeRateOfChange` states that agree on the
last two rows of both the input and the TiData but yield different
signals (`('sell', 1)` against `('hold', 0)`), because the signal rule
reads the third-to-last TiData row. -/
theorem C5_counterexample :
    agreeLastTwo ⟨[1, 2, 3], [1, 2, 3], [1, 2, 3], [1, 2, 3]⟩
        ⟨[1, 2, 3], [1, 2, 3], [1, 2, 3], [1, 2, 3]⟩ ∧
      lastTwo [some (1 : ℚ), some 2, some 3] =
        lastTwo [some (5 : ℚ), some 2, some 3] ∧
      getTiSignal (.VolumeRateOfChange 5)
          ⟨[1, 2, 3], [1, 2, 3], [1, 2, 3], [1, 2, 3]⟩
          [some 1, some 2, some 3] ≠
        getTiSignal (.VolumeRateOfChange 5)
          ⟨[1, 2, 3], [1, 2, 3], [1, 2, 3], [1, 2, 3]⟩
          [some 5, some 2, some 3] :=
  ⟨⟨rfl, rfl, rfl, rfl⟩, by decide, by decide⟩

/-- C5 amended: the two-period lookback holds for Parabolic SAR, RSI and
TEMA — any two states agreeing on the last two rows of input and TiData
produce the same signal — while Volume Rate of Change reads exactly the
last three TiData rows (states agreeing on the last three rows produce the
same signal).  Momentum and Chaikin Oscillator look further back (an EMA
over the whole TiData history; a 90-period close average). -/
theorem C5_two_period_lookback_amended (a b : InputData) (ta tb : TiCol)
    (hh : agreeLastTwo a b) (ht : lastTwo ta = lastTwo tb) :
    getTiSignal .ParabolicSAR a ta = getTiSignal .ParabolicSAR b tb ∧
      (∀ p, getTiSignal (.RelativeStrengthIndex p) a ta =
        getTiSignal (.RelativeStrengthIndex p) b tb) ∧
      (∀ p, getTiSignal (.TripleExponentialMovingAverage p) a ta =
        getTiSignal (.TripleExponentialMovingAverage p) b tb) ∧
      (lastThree ta = lastThree tb →
        ∀ p, getTiSignal (.VolumeRateOfChange p) a ta =
          getTiSignal (.VolumeRateOfChange p) b tb) := by
  obtain ⟨_, _, hc, _⟩ := hh
  have eq1 : iat1 ta = iat1 tb := by rw [← iat1_lastTwo ta, ht, iat1_lastTwo]
  have eq2 : iat2 ta = iat2 tb := by rw [← iat2_lastTwo ta, ht, iat2_lastTwo]
  have ec1 : iat1 a.close = iat1 b.close := by
    rw [← iat1_lastTwo a.close, hc, iat1_lastTwo]
  have ec2 : iat2 a.close = iat2 b.close := by
    rw [← iat2_lastTwo a.close, hc, iat2_lastTwo]
  have elen2 : min 2 ta.length = min 2 tb.length := by
    have e := congrArg List.length ht
    rwa [lastTwo_length, lastTwo_length] at e
  refine ⟨?_, ?_, ?_, ?_⟩
  · show parabolicSarSignal a ta = parabolicSarSignal b tb
    rw [parabolicSarSignal, parabolicSarSignal, eq1, eq2, ec1, ec2]
    by_cases h2 : tb.length < 2
    · rw [if_pos (by omega), if_pos h2]
    · rw [if_neg (by omega), if_neg h2]
  · intro p
    show rsiSignal ta = rsiSignal tb
    rw [rsiSignal, rsiSignal, eq1, eq2]
    by_cases h2 : tb.length < 2
    · rw [if_pos (by omega), if_pos h2]
    · rw [if_neg (by omega), if_neg h2]
  · intro p
    show temaSignal a ta = temaSignal b tb
    rw [temaSignal, temaSignal, eq1, ec1]
    by_cases h2 : tb.length < 1
    · rw [if_pos (by omega), if_pos h2]
    · rw [if_neg (by omega), if_neg h2]
  · intro ht3 p
    have eq33 : iat3 ta = iat3 tb := by
      rw [← iat3_lastThree ta, ht3, iat3_lastThree]
    have elen3 : min 3 ta.length = min 3 tb.length := by
      have e := congrArg List.length ht3
      rwa [lastThree_length, lastThree_length] at e
    show vrocSignal ta = vrocSignal tb
    rw [vrocSignal, vrocSignal, eq1, eq2, eq33]
    by_cases h2 : tb.length < 3
    · rw [if_pos (by omega), if_pos h2]
    · rw [if_neg (by omega), if_neg h2]

/-- Witness for the amended C5 at concrete states of different lengths:
the Parabolic SAR conjunct from two-row agreement alone, and the Volume
Rate of Change conjunct once three-row agreement is added. -/
theorem C5_two_period_lookback_amended_witness :
    agreeLastTwo ⟨[1, 2], [1, 2], [1, 2], [1, 2]⟩
        ⟨[0, 1, 2], [0, 1, 2], [0, 1, 2], [0, 1, 2]⟩ ∧
      lastTwo [some (0 : ℚ), some 1, some 2, some 3] =
        lastTwo [some (1 : ℚ), some 2, some 3] ∧
      lastThree [some (0 : ℚ), some 1, some 2, some 3] =
        lastThree [some (1 : ℚ), some 2, some 3] ∧
      getTiSignal .ParabolicSAR ⟨[1, 2], [1, 2], [1, 2], [1, 2]⟩
          [some 0, some 1, some 2, some 3] =
        getTiSignal .ParabolicSAR ⟨[0, 1, 2], [0, 1, 2], [0, 1, 2], [0, 1, 2]⟩
          [some 1, some 2, some 3] ∧
      getTiSignal (.VolumeRateOfChange 5) ⟨[1, 2], [1, 2], [1, 2], [1, 2]⟩
          [some 0, some 1, some 2, some 3] =
        getTiSignal (.VolumeRateOfChange 5)
          ⟨[0, 1, 2], [0, 1, 2], [0, 1, 2], [0, 1, 2]⟩
          [some 1, some 2, some 3] :=
  ⟨by decide, by decide, by decide,
    (C5_two_period_lookback_amended ⟨[1, 2], [1, 2], [1, 2], [1, 2]⟩
      ⟨[0, 1, 2], [0, 1, 2], [0, 1, 2], [0, 1, 2]⟩
      [some 0, some 1, some 2, some 3] [some 1, some 2, some 3]
      (by decide) (by decide)).1,
    (C5_two_period_lookback_amended ⟨[1, 2], [1, 2], [1, 2], [1, 2]⟩
      ⟨[0, 1, 2], [0, 1, 2], [0, 1, 2], [0, 1, 2]⟩
      [some 0, some 1, some 2, some 3] [some 1, some 2, some 3]
      (by decide) (by decide)).2.2.2 (by decide) 5⟩

end TTI

namespace TTI

/-! ### C2: label correctness -/

theorem rollNeg_length (h : Nat) (a : List ℚ) :
    (rollNeg h a).length = a.length := by
  rw [rollNeg, List.length_append, List.length_drop, List.length_take]
  omega

theorem createMLDataLabels_length (close : List ℚ) (h : Nat) :
    (createMLDataLabels close h).length = close.length := by
  simp [createMLDataLabels, List.length_map, List.length_zipWith,
    rollNeg_length]

theorem rollNeg_getD {a : List ℚ} {h t : Nat} (h2 : h < a.length)
    (ht : t < a.length - h) : (rollNeg h a)[t]? = a[t + h]? := by
  rw [rollNeg, Nat.mod_eq_of_lt h2, List.getElem?_append,
    if_pos (show t < (a.drop h).length by rw [List.length_drop]; omega),
    List.getElem?_drop]
  congr 1
  omega

theorem createMLDataLabels_getD {close : List ℚ} {h t : Nat}
    (h2 : h < close.length) (ht : t < close.length - h) :
    (createMLDataLabels close h).getD t 0 =
      if 0 < close.getD (t + h) 0 - close.getD t 0 then ML_CLASSES "UP"
      else ML_CLASSES "DOWN" := by
  obtain ⟨x, hx⟩ : ∃ x, close[t]? = some x :=
    ⟨_, List.getElem?_eq_getElem (by omega)⟩
  obtain ⟨y, hy⟩ : ∃ y, close[t + h]? = some y :=
    ⟨_, List.getElem?_eq_getElem (by omega)⟩
  have hroll : (rollNeg h close)[t]? = some y := by
    rw [rollNeg_getD h2 ht, hy]
  have hgx : close.getD t 0 = x := by
    rw [List.getD_eq_getElem?_getD, hx]; rfl
  have hgy : close.getD (t + h) 0 = y := by
    rw [List.getD_eq_getElem?_getD, hy]; rfl
  simp only [createMLDataLabels]
  rw [List.getD_eq_getElem?_getD, List.getElem?_map, List.getElem?_map,
    List.getElem?_zipWith, hroll, hx, hgx, hgy]
  by_cases hpos : 0 < y - x
  · rw [if_pos hpos]
    norm_num [hpos, ML_CLASSES]
  · rw [if_neg hpos]
    have hle : y - x ≤ 0 := le_of_not_lt hpos
    norm_num [hpos, hle, ML_CLASSES]

end TTI

namespace TTI

/-- C2: Label correctness with tie-to-DOWN.  For every close series and
valid horizon `h`, the labels column written by `createMLData`
(`_createMLDataLabels()[:-h]`) has one entry per retained row
`t`, equal to UP when `close[t+h] - close[t] > 0` and DOWN otherwise
(zero difference gives DOWN), the last `h` rows being trimmed; in
particular `[10, 12, 11, 11, 15]` with `h = 1` yields
`[UP, DOWN, DOWN, UP]`. -/
theorem C2_label_correctness (close : List ℚ) (h : Nat) (h1 : 1 ≤ h)
    (h2 : h < close.length) :
    ((createMLDataLabels close h).take (close.length - h)).length =
        close.length - h ∧
      (∀ t, t < close.length - h →
        ((createMLDataLabels close h).take (close.length - h)).getD t 0 =
          if 0 < close.getD (t + h) 0 - close.getD t 0 then ML_CLASSES "UP"
          else ML_CLASSES "DOWN") ∧
      (createMLDataLabels [10, 12, 11, 11, 15] 1).take 4 =
        [ML_CLASSES "UP", ML_CLASSES "DOWN", ML_CLASSES "DOWN",
          ML_CLASSES "UP"] := by
  refine ⟨?_, ?_, by decide⟩
  · rw [List.length_take, createMLDataLabels_length]
    omega
  · intro t ht
    rw [getD_take ht, createMLDataLabels_getD h2 ht]

/-- Witness for C2 at the synthetic series of the claim. -/
theorem C2_label_correctness_witness :
    1 ≤ 1 ∧ 1 < ([10, 12, 11, 11, 15] : List ℚ).length ∧
      (((createMLDataLabels [10, 12, 11, 11, 15] 1).take
          (([10, 12, 11, 11, 15] : List ℚ).length - 1)).length =
        ([10, 12, 11, 11, 15] : List ℚ).length - 1 ∧
      (∀ t, t < ([10, 12, 11, 11, 15] : List ℚ).length - 1 →
        ((createMLDataLabels [10, 12, 11, 11, 15] 1).take
            (([10, 12, 11, 11, 15] : List ℚ).length - 1)).getD t 0 =
          if 0 < ([10, 12, 11, 11, 15] : List ℚ).getD (t + 1) 0 -
              ([10, 12, 11, 11, 15] : List ℚ).getD t 0 then ML_CLASSES "UP"
          else ML_CLASSES "DOWN") ∧
      (createMLDataLabels [10, 12, 11, 11, 15] 1).take 4 =
        [ML_CLASSES "UP", ML_CLASSES "DOWN", ML_CLASSES "DOWN",
          ML_CLASSES "UP"]) :=
  ⟨le_refl 1, by decide,
    C2_label_correctness [10, 12, 11, 11, 15] 1 (le_refl 1) (by decide)⟩

end TTI

namespace TTI

/-! ### C3: pool determinism and column layout -/

theorem getD_set {m : List (List ℚ)} {i j : Nat} {c : List ℚ}
    (hi : i < m.length) :
    (m.set i c).getD j [] = if i = j then c else m.getD j [] := by
  rw [List.getD_eq_getElem?_getD, List.getD_eq_getElem?_getD,
    List.getElem?_set]
  by_cases hij : i = j
  · rw [if_pos hij, if_pos hij, if_pos hi]
    rfl
  · rw [if_neg hij, if_neg hij]

theorem lookup_poolOutputs {tasks : List (SupportedIndicator × TiCol)}
    {inp : InputData} {order : List Nat} {i : Nat}
    (hperm : order.Perm (List.range tasks.length)) (hi : i < tasks.length) :
    (poolOutputs tasks inp order).lookup i =
      some (taskResult tasks inp i) := by
  have hmem : i ∈ order := hperm.mem_iff.mpr (List.mem_range.mpr hi)
  clear hperm
  induction order with
  | nil => cases hmem
  | cons j rest ih =>
      rw [poolOutputs, List.map_cons, List.lookup_cons]
      by_cases hij : i = j
      · subst hij
        simp
      · have : (i == j) = false := by simp [hij]
        rw [this]
        exact ih (by rcases List.mem_cons.mp hmem with h | h; exact absurd h hij; exact h)

theorem poolResults_perm {tasks : List (SupportedIndicator × TiCol)}
    {inp : InputData} {order : List Nat}
    (hperm : order.Perm (List.range tasks.length)) :
    poolResults tasks inp order =
      (List.range tasks.length).map (taskResult tasks inp) := by
  rw [poolResults]
  apply List.map_congr_left
  intro i hi
  rw [lookup_poolOutputs hperm (List.mem_range.mp hi)]
  rfl

theorem foldl_set_length (f : Nat → List ℚ) (K : Nat) (m : List (List ℚ)) :
    ((List.range K).foldl (fun acc i => acc.set i (f i)) m).length =
      m.length := by
  induction K generalizing m with
  | zero => simp
  | succ K2 ih =>
      rw [List.range_succ, List.foldl_append, List.foldl_cons,
        List.foldl_nil, List.length_set, ih]

theorem foldl_set_getD (f : Nat → List ℚ) :
    ∀ (K : Nat) (m : List (List ℚ)) (j : Nat), K ≤ m.length →
      ((List.range K).foldl (fun acc i => acc.set i (f i)) m).getD j [] =
        if j < K then f j else m.getD j []
  | 0, m, j, _ => by simp
  | K + 1, m, j, hK => by
      rw [List.range_succ, List.foldl_append, List.foldl_cons, List.foldl_nil]
      have hlen : ((List.range K).foldl (fun acc i => acc.set i (f i)) m).length
          = m.length := foldl_set_length f K m
      have hset := @getD_set
        ((List.range K).foldl (fun acc i => acc.set i (f i)) m)
        K j (f K) (by omega)
      rw [hset, foldl_set_getD f K m j (by omega)]
      by_cases hjK : j = K
      · subst hjK
        rw [if_pos rfl, if_pos (by omega)]
      · rw [if_neg (fun e => hjK e.symm)]
        by_cases hj : j < K
        · rw [if_pos hj, if_pos (by omega)]
        · rw [if_neg hj, if_neg (by omega)]

end TTI

namespace TTI

theorem foldl_set_getElemq (f : Nat → List ℚ) :
    ∀ (K : Nat) (m : List (List ℚ)) (j : Nat),
      ((List.range K).foldl (fun acc i => acc.set i (f i)) m)[j]? =
        if j < K ∧ j < m.length then some (f j) else m[j]?
  | 0, m, j => by simp
  | K + 1, m, j => by
      rw [List.range_succ, List.foldl_append, List.foldl_cons, List.foldl_nil,
        List.getElem?_set, foldl_set_length, foldl_set_getElemq f K m j]
      by_cases hjK : K = j
      · subst hjK
        by_cases hKm : K < m.length
        · rw [if_pos rfl, if_pos hKm, if_pos (by omega)]
        · rw [if_pos rfl, if_neg hKm, if_neg (by omega),
            List.getElem?_eq_none (by omega)]
      · rw [if_neg hjK]
        by_cases hj : j < K ∧ j < m.length
        · rw [if_pos hj, if_pos (by omega)]
        · rw [if_neg hj, if_neg (by omega)]

set_option maxHeartbeats 2000000 in
/-- Which column of `self._ml_data` ends up where: the labels column at the
last index, the indicator signal columns at `0..K-1`, then the optional
close and volume passthrough columns; every index is written (no zero
column remains). -/
theorem createMLData_getElemq (c : MLConfig) (order : List Nat) (j : Nat)
    (hj : j < c.totalCols) :
    (createMLData c order)[j]? =
      some (if j = c.totalCols - 1 then
        (createMLDataLabels c.inp.close c.h).take c.rows
      else if j < c.features.length then
        (((poolResults c.features c.inp order).getD j []).take c.rows).map
          ((Int.cast : Int → ℚ))
      else if c.includeClose = true ∧ j = c.features.length then
        c.inp.close.take c.rows
      else if c.includeVolume = true ∧ j = c.features.length +
          (if c.includeClose then 1 else 0) then
        c.inp.volume.take c.rows
      else List.replicate c.rows 0) := by
  rw [MLConfig.totalCols] at hj
  cases hc : c.includeClose <;> cases hv : c.includeVolume <;>
    (try simp only [hc, hv, eq_self_iff_true, Bool.false_eq_true, if_true,
      if_false] at hj) <;>
    simp only [createMLData, setCol, MLConfig.totalCols, hc, hv,
      eq_self_iff_true, Bool.false_eq_true, Bool.true_eq_false, false_and,
      true_and, if_true, if_false, List.getElem?_set, List.length_set,
      foldl_set_length, List.length_replicate, foldl_set_getElemq,
      List.getElem?_replicate] <;>
    split_ifs <;>
    first
      | rfl
      | omega

end TTI

namespace TTI

theorem getD_mem {α : Type} {l : List α} {j : Nat} (d : α)
    (hj : j < l.length) : l.getD j d ∈ l := by
  rw [List.getD_eq_getElem?_getD, List.getElem?_eq_getElem hj]
  exact List.getElem_mem hj

theorem createMLData_length (c : MLConfig) (order : List Nat) :
    (createMLData c order).length = c.totalCols := by
  cases hc : c.includeClose <;> cases hv : c.includeVolume <;>
    simp [createMLData, setCol, hc, hv, List.length_set, foldl_set_length,
      List.length_replicate]

/-- C3: Feature matrix shape and column order.  For every valid
configuration and every pool completion order, the matrix built by
`createMLData` has `totalCols` columns of exactly `N - h` rows each; its
columns are, in order, one walk-forward signal column per configured
indicator in the `ti_features` configuration order (independent of the
worker-task completion order), then the close passthrough column if
selected, then the volume passthrough column if selected, then the labels
column last. -/
theorem C3_feature_matrix_layout (c : MLConfig) (order : List Nat)
    (hperm : order.Perm (List.range c.features.length))
    (hs : c.inp.sameLen) (h1 : 1 ≤ c.h) (h2 : c.h < c.inp.len)
    (htd : ∀ pr ∈ c.features, calcTi pr.1 c.inp = some pr.2) :
    (createMLData c order).length = c.totalCols ∧
      (∀ j, j < c.totalCols →
        ((createMLData c order).getD j []).length = c.rows) ∧
      (∀ j, j < c.features.length →
        (createMLData c order).getD j [] =
          ((taskResult c.features c.inp j).take c.rows).map
            ((Int.cast : Int → ℚ))) ∧
      (c.includeClose = true →
        (createMLData c order).getD c.features.length [] =
          c.inp.close.take c.rows) ∧
      (c.includeVolume = true →
        (createMLData c order).getD
            (c.features.length + (if c.includeClose then 1 else 0)) [] =
          c.inp.volume.take c.rows) ∧
      (createMLData c order).getD (c.totalCols - 1) [] =
        (createMLDataLabels c.inp.close c.h).take c.rows := by
  have htc : c.totalCols = c.features.length +
      (if c.includeClose then 1 else 0) +
      (if c.includeVolume then 1 else 0) + 1 := rfl
  have hNc : c.inp.close.length = c.inp.len := rfl
  have hNv : c.inp.volume.length = c.inp.len := hs.2.2
  have hgetD : ∀ j, j < c.totalCols → (createMLData c order).getD j [] =
      (if j = c.totalCols - 1 then
        (createMLDataLabels c.inp.close c.h).take c.rows
      else if j < c.features.length then
        (((poolResults c.features c.inp order).getD j []).take c.rows).map
          ((Int.cast : Int → ℚ))
      else if c.includeClose = true ∧ j = c.features.length then
        c.inp.close.take c.rows
      else if c.includeVolume = true ∧ j = c.features.length +
          (if c.includeClose then 1 else 0) then
        c.inp.volume.take c.rows
      else List.replicate c.rows 0) := by
    intro j hj
    rw [List.getD_eq_getElem?_getD, createMLData_getElemq c order j hj]
    rfl
  have hsigval : ∀ j, j < c.features.length →
      (poolResults c.features c.inp order).getD j [] =
        taskResult c.features c.inp j := by
    intro j hj
    rw [poolResults_perm hperm, List.getD_eq_getElem?_getD,
      List.getElem?_map, List.getElem?_range hj]
    rfl
  have hsiglen : ∀ j, j < c.features.length →
      (taskResult c.features c.inp j).length = c.inp.len := by
    intro j hj
    rw [taskResult, getSignalsSequence, List.length_map, List.length_range]
    exact calcTi_length hs (htd _ (getD_mem _ hj))
  refine ⟨createMLData_length c order, ?_, ?_, ?_, ?_, ?_⟩
  · intro j hj
    rw [hgetD j hj]
    split_ifs <;>
      first
        | (rw [List.length_take, createMLDataLabels_length, hNc,
            MLConfig.rows]; omega)
        | (rw [List.length_map, List.length_take,
            hsigval j ‹j < c.features.length›,
            hsiglen j ‹j < c.features.length›, MLConfig.rows]; omega)
        | (rw [List.length_take, hNc, MLConfig.rows]; omega)
        | (rw [List.length_take, hNv, MLConfig.rows]; omega)
        | (exfalso; cases hcb : c.includeClose <;>
            cases hvb : c.includeVolume <;> simp_all <;> omega)
  · intro j hj
    rw [hgetD j (by omega), if_neg (by omega), if_pos hj, hsigval j hj]
  · intro hcb
    have hj : c.features.length < c.totalCols := by omega
    rw [hgetD _ hj]
    have hA2 : ¬ (c.features.length = c.totalCols - 1) := by
      rw [hcb] at htc
      simp only [eq_self_iff_true, if_true] at htc
      omega
    rw [if_neg hA2, if_neg (by omega), if_pos ⟨hcb, rfl⟩]
  · intro hvb
    have hj : c.features.length + (if c.includeClose then 1 else 0) <
        c.totalCols := by omega
    rw [hgetD _ hj]
    have hA : ¬ (c.features.length + (if c.includeClose then 1 else 0) =
        c.totalCols - 1) := by
      rw [hvb] at htc
      simp only [eq_self_iff_true, if_true] at htc
      omega
    have hCn : ¬ (c.includeClose = true ∧
        c.features.length + (if c.includeClose then 1 else 0) =
          c.features.length) := by
      rintro ⟨hcb2, he⟩
      rw [hcb2] at he
      simp at he
    rw [if_neg hA, if_neg (by omega), if_neg hCn, if_pos ⟨hvb, rfl⟩]
  · rw [hgetD _ (by omega), if_pos rfl]

end TTI

namespace TTI

/-- Witness for C3: one Momentum feature with the close passthrough on a
two-row series, pool completing in order `[0]`. -/
theorem C3_feature_matrix_layout_witness :
    ([0] : List Nat).Perm (List.range 1) ∧
      InputData.sameLen ⟨[1, 2], [1, 2], [1, 2], [1, 2]⟩ ∧
      (createMLData
          ⟨⟨[1, 2], [1, 2], [1, 2], [1, 2]⟩,
            [(.Momentum 1, [none, some 1])], true, false, 1⟩ [0]).length =
        MLConfig.totalCols
          ⟨⟨[1, 2], [1, 2], [1, 2], [1, 2]⟩,
            [(.Momentum 1, [none, some 1])], true, false, 1⟩ :=
  ⟨by decide, by decide,
    (C3_feature_matrix_layout
      ⟨⟨[1, 2], [1, 2], [1, 2], [1, 2]⟩,
        [(.Momentum 1, [none, some 1])], true, false, 1⟩ [0]
      (by decide) (by decide) (by decide) (by decide) (by decide)).1⟩

end TTI


namespace TTI

/-! ### C8: the acceleration factor along the SAR rows -/

/-- `af` values reachable by the SAR recursion: positive multiples of the
base increment up to the maximum. -/
def afGrid (x : ℚ) : Prop :=
  ∃ k : Nat, 1 ≤ k ∧ k ≤ 10 ∧ x = (k : ℚ) * afIncrease

/-- The C8 invariant between two consecutive SAR rows: the next row's `af`
stays on the grid; within a position it never decreases, stays at or below
`afMax`, and changes only by exactly the base increment and only when a
new extreme price (`ep`, the running extreme of the position) is reached;
on a position flip it is reset to the base increment. -/
def SarStepOK (a b : SarRow) : Prop :=
  afGrid b.af ∧
    (b.position = a.position →
      a.af ≤ b.af ∧ b.af ≤ afMax ∧
        (b.af ≠ a.af → b.af = a.af + afIncrease ∧
          ((a.position = .LONG ∧ a.ep < b.ep) ∨
            (a.position = .SHORT ∧ b.ep < a.ep)))) ∧
    (b.position ≠ a.position → b.af = afIncrease)

theorem afMax_eq : afMax = (10 : ℚ) * afIncrease := by
  norm_num [afMax, afIncrease]

theorem afIncrease_pos : 0 < afIncrease := by norm_num [afIncrease]

theorem afGrid_le {x : ℚ} (h : afGrid x) : x ≤ afMax := by
  obtain ⟨k, _, hk10, rfl⟩ := h
  rw [afMax_eq]
  have hc : (k : ℚ) ≤ 10 := by exact_mod_cast hk10
  nlinarith [afIncrease_pos]

theorem af_update {x : ℚ} (h : afGrid x) :
    afGrid (min afMax (x + afIncrease)) ∧
      x ≤ min afMax (x + afIncrease) ∧
      min afMax (x + afIncrease) ≤ afMax ∧
      (min afMax (x + afIncrease) ≠ x →
        min afMax (x + afIncrease) = x + afIncrease) := by
  obtain ⟨k, hk1, hk10, rfl⟩ := h
  by_cases hk9 : k ≤ 9
  · have hc : (k : ℚ) ≤ 9 := by exact_mod_cast hk9
    have hle : (k : ℚ) * afIncrease + afIncrease ≤ afMax := by
      rw [afMax_eq]
      nlinarith [afIncrease_pos]
    rw [min_eq_right hle]
    exact ⟨⟨k + 1, by omega, by omega, by push_cast; ring⟩,
      by nlinarith [afIncrease_pos], hle, fun _ => rfl⟩
  · have hk' : (k : ℚ) = 10 := by exact_mod_cast (by omega : k = 10)
    have hx : (k : ℚ) * afIncrease = afMax := by rw [hk', afMax_eq]
    rw [hx, min_eq_left (by nlinarith [afIncrease_pos])]
    exact ⟨⟨10, by omega, le_refl 10, afMax_eq⟩, le_refl _, le_refl _,
      fun hne => absurd rfl hne⟩

theorem calcSarRow_flip_af (inp : InputData) (ci psi : Nat) (prev : SarRow)
    (hci : ci ≠ 0) :
    (calcSarRow inp ci psi prev true).1.af = afIncrease ∧
      (calcSarRow inp ci psi prev true).1.position ≠ prev.position := by
  rw [calcSarRow.eq_def]
  rw [if_neg hci]
  cases hp : prev.position <;> simp [hp]

theorem calcSarRow_main_result (inp : InputData) (ci psi : Nat)
    (prev : SarRow) (hci : ci ≠ 0) :
    (calcSarRow inp ci psi prev false).1 =
        (calcSarRow inp ci psi prev true).1 ∨
      ∃ af ep sar, (calcSarRow inp ci psi prev false).1 =
          ⟨af, ep, sar, prev.position⟩ ∧
        ((af = min afMax (prev.af + afIncrease) ∧
          ((prev.position = .LONG ∧ prev.ep < ep) ∨
            (prev.position = .SHORT ∧ ep < prev.ep))) ∨
          af = prev.af) := by
  rw [calcSarRow.eq_def]
  rw [if_neg hci]
  simp only [Bool.false_eq_true, if_false]
  cases hp : prev.position <;>
    simp only [hp] <;>
    split_ifs <;>
    first
      | exact Or.inl rfl
      | exact Or.inr ⟨_, _, _, rfl, Or.inr rfl⟩
      | exact Or.inr ⟨_, _, _, rfl,
          Or.inl ⟨rfl, Or.inl ⟨rfl, by assumption⟩⟩⟩
      | exact Or.inr ⟨_, _, _, rfl,
          Or.inl ⟨rfl, Or.inr ⟨rfl, by assumption⟩⟩⟩
      | (refine Or.inr ⟨_, _, _, rfl, ?_⟩
         simp_all)

end TTI

namespace TTI

theorem calcSarRow_step (inp : InputData) (ci psi : Nat) (prev : SarRow)
    (hci : ci ≠ 0) (hgrid : afGrid prev.af) :
    SarStepOK prev (calcSarRow inp ci psi prev false).1 := by
  have hflip := calcSarRow_flip_af inp ci psi prev hci
  rcases calcSarRow_main_result inp ci psi prev hci with heq |
    ⟨af, ep, sar, heq, hspec⟩
  · rw [heq]
    exact ⟨⟨1, le_refl 1, by omega, by rw [hflip.1]; push_cast; ring⟩,
      fun hpos => absurd hpos hflip.2, fun _ => hflip.1⟩
  · rw [heq]
    rcases hspec with ⟨haf, hnew⟩ | haf
    · have hu := af_update hgrid
      rw [haf]
      exact ⟨hu.1, fun _ => ⟨hu.2.1, hu.2.2.1,
        fun hne => ⟨hu.2.2.2 hne, hnew⟩⟩, fun hne => absurd rfl hne⟩
    · rw [haf]
      exact ⟨hgrid, fun _ => ⟨le_refl _, afGrid_le hgrid,
        fun hne => absurd rfl hne⟩, fun hne => absurd rfl hne⟩

theorem calcSarRow_zero_af (inp : InputData) (psi : Nat) (prev : SarRow)
    (pc : Bool) : (calcSarRow inp 0 psi prev pc).1.af = afIncrease := by
  rw [calcSarRow.eq_def]
  split_ifs <;> first | rfl | omega

theorem sarRowsGo_chain (inp : InputData) :
    ∀ (k i psi : Nat) (prev : SarRow), 1 ≤ i → afGrid prev.af →
      List.Chain SarStepOK prev (sarRowsGo inp i prev psi k)
  | 0, _, _, _, _, _ => List.Chain.nil
  | k + 1, i, psi, prev, hi, hgrid => by
      simp only [sarRowsGo]
      exact List.Chain.cons (calcSarRow_step inp i psi prev (by omega) hgrid)
        (sarRowsGo_chain inp k (i + 1) _ _ (by omega)
          (calcSarRow_step inp i psi prev (by omega) hgrid).1)

theorem sarRowsGo_grid (inp : InputData) :
    ∀ (k i psi : Nat) (prev : SarRow), 1 ≤ i → afGrid prev.af →
      ∀ r ∈ sarRowsGo inp i prev psi k, afGrid r.af
  | 0, _, _, _, _, _ => by simp [sarRowsGo]
  | k + 1, i, psi, prev, hi, hgrid => by
      simp only [sarRowsGo, List.mem_cons]
      rintro r (rfl | hr)
      · exact (calcSarRow_step inp i psi prev (by omega) hgrid).1
      · exact sarRowsGo_grid inp k (i + 1) _ _ (by omega)
          (calcSarRow_step inp i psi prev (by omega) hgrid).1 r hr

theorem sarRows_chain (inp : InputData) :
    List.Chain' SarStepOK (sarRows inp) := by
  rw [sarRows]
  cases hN : inp.len with
  | zero => exact trivial
  | succ n =>
      show List.Chain' SarStepOK (sarRowsGo inp 0 default 0 (n + 1))
      simp only [sarRowsGo]
      show List.Chain SarStepOK _ _
      exact sarRowsGo_chain inp n 1 _ _ (le_refl 1)
        ⟨1, le_refl 1, by omega, by rw [calcSarRow_zero_af]; push_cast; ring⟩

theorem sarRows_grid (inp : InputData) :
    ∀ r ∈ sarRows inp, afGrid r.af := by
  rw [sarRows]
  cases hN : inp.len with
  | zero => simp [sarRowsGo]
  | succ n =>
      simp only [sarRowsGo, List.mem_cons]
      rintro r (rfl | hr)
      · exact ⟨1, le_refl 1, by omega,
          by rw [calcSarRow_zero_af]; push_cast; ring⟩
      · exact sarRowsGo_grid inp n 1 _ _ (le_refl 1)
          ⟨1, le_refl 1, by omega,
            by rw [calcSarRow_zero_af]; push_cast; ring⟩ r hr

/-- C8: Parabolic SAR acceleration-factor invariant.  Along the rows
computed by `_calculateTi`, `af` never exceeds the maximum 0.2, and
between any two consecutive rows: within a single position `af` never
decreases and increases — by exactly the base increment 0.02 — only on
rows where a new extreme price is reached, while on every position flip it
is reset to the base increment 0.02 (see `SarStepOK`). -/
theorem C8_sar_af_invariant (inp : InputData) (h2 : 2 ≤ inp.len) :
    (∀ r ∈ sarRows inp, r.af ≤ afMax) ∧
      ∀ i, i + 1 < (sarRows inp).length →
        SarStepOK ((sarRows inp).getD i default)
          ((sarRows inp).getD (i + 1) default) := by
  constructor
  · exact fun r hr => afGrid_le (sarRows_grid inp r hr)
  · intro i hi
    have hchain := (List.chain'_iff_get.mp (sarRows_chain inp)) i (by omega)
    have e1 : (sarRows inp).getD i default = (sarRows inp).get ⟨i, by omega⟩ := by
      rw [List.getD_eq_getElem?_getD, List.getElem?_eq_getElem (by omega)]
      rfl
    have e2 : (sarRows inp).getD (i + 1) default =
        (sarRows inp).get ⟨i + 1, by omega⟩ := by
      rw [List.getD_eq_getElem?_getD, List.getElem?_eq_getElem (by omega)]
      rfl
    rw [e1, e2]
    exact hchain

/-- Witness for C8 on a three-row series with a position flip. -/
theorem C8_sar_af_invariant_witness :
    2 ≤ InputData.len ⟨[10, 12, 13], [9, 11, 12], [10, 12, 13], [1, 1, 1]⟩ ∧
      ∀ r ∈ sarRows ⟨[10, 12, 13], [9, 11, 12], [10, 12, 13], [1, 1, 1]⟩,
        r.af ≤ afMax :=
  ⟨by decide,
    (C8_sar_af_invariant ⟨[10, 12, 13], [9, 11, 12], [10, 12, 13], [1, 1, 1]⟩
      (by decide)).1⟩

end TTI

namespace TTI

/-! ### C9: bounded re-entry of `_calculateSarRow` -/

/-- `_calculateSarRow` instrumented with counters: the result, the number
of invocations performed (the initial call plus any recursive
`position_changed=True` re-invocation), and the number of times the
position-flip condition is evaluated during the call. -/
def calcSarRowTraced (inp : InputData) (ci psi : Nat) (prev : SarRow)
    (pc : Bool) : (SarRow × Nat) × Nat × Nat :=
  if ci = 0 then
    if inp.high.getD 0 0 < inp.high.getD 1 0 then
      ((⟨afIncrease, inp.high.getD 0 0, inp.low.getD 0 0, .LONG⟩, ci), 1, 0)
    else
      ((⟨afIncrease, inp.low.getD 0 0, inp.high.getD 0 0, .SHORT⟩, ci), 1, 0)
  else if pc then
    match prev.position with
    | .LONG =>
        ((⟨afIncrease, inp.low.getD ci 0, sliceMax inp.high psi ci,
          .SHORT⟩, ci), 1, 0)
    | .SHORT =>
        ((⟨afIncrease, inp.high.getD ci 0, sliceMin inp.low psi ci,
          .LONG⟩, ci), 1, 0)
  else
    let ep : ℚ := match prev.position with
      | .LONG => sliceMax inp.high psi (ci + 1)
      | .SHORT => sliceMin inp.low psi (ci + 1)
    let af : ℚ :=
      if prev.position = .LONG ∧ prev.ep < ep then
        min afMax (prev.af + afIncrease)
      else if prev.position = .SHORT ∧ ep < prev.ep then
        min afMax (prev.af + afIncrease)
      else prev.af
    let sar0 : ℚ := prev.sar + prev.af * (prev.ep - prev.sar)
    let sar : ℚ := match prev.position with
      | .LONG => min sar0 (sliceMin inp.low (ci - 2) ci)
      | .SHORT => max sar0 (sliceMax inp.high (ci - 2) ci)
    if (prev.position = .SHORT ∧ sar < inp.high.getD ci 0) ∨
        (prev.position = .LONG ∧ inp.low.getD ci 0 < sar) then
      let t := calcSarRowTraced inp ci psi prev true
      (t.1, t.2.1 + 1, t.2.2 + 1)
    else
      ((⟨af, ep, sar, prev.position⟩, psi), 1, 1)
termination_by (if pc then 0 else 1)
decreasing_by simp_all

theorem calcSarRowTraced_flip (inp : InputData) (ci psi : Nat)
    (prev : SarRow) :
    (calcSarRowTraced inp ci psi prev true).2.1 = 1 ∧
      (calcSarRowTraced inp ci psi prev true).2.2 = 0 := by
  rw [calcSarRowTraced.eq_def]
  by_cases h0 : ci = 0
  · rw [if_pos h0]
    split_ifs <;> exact ⟨rfl, rfl⟩
  · rw [if_neg h0]
    cases prev.position <;> exact ⟨rfl, rfl⟩

theorem calcSarRowTraced_result_flip (inp : InputData) (ci psi : Nat)
    (prev : SarRow) :
    (calcSarRowTraced inp ci psi prev true).1 =
      calcSarRow inp ci psi prev true := by
  rw [calcSarRowTraced.eq_def, calcSarRow.eq_def]
  by_cases h0 : ci = 0
  · rw [if_pos h0, if_pos h0]
    split_ifs <;> rfl
  · rw [if_neg h0, if_neg h0]
    cases prev.position <;> rfl

theorem calcSarRowTraced_result (inp : InputData) (ci psi : Nat)
    (prev : SarRow) (pc : Bool) :
    (calcSarRowTraced inp ci psi prev pc).1 =
      calcSarRow inp ci psi prev pc := by
  cases pc with
  | true => exact calcSarRowTraced_result_flip inp ci psi prev
  | false =>
      rw [calcSarRowTraced.eq_def, calcSarRow.eq_def]
      by_cases h0 : ci = 0
      · rw [if_pos h0, if_pos h0]
        split_ifs <;> rfl
      · rw [if_neg h0, if_neg h0]
        simp only [Bool.false_eq_true, if_false]
        split_ifs <;>
          first
            | exact calcSarRowTraced_result_flip inp ci psi prev
            | rfl

theorem calcSarRowTraced_counts (inp : InputData) (ci psi : Nat)
    (prev : SarRow) (pc : Bool) :
    (calcSarRowTraced inp ci psi prev pc).2.1 ≤ 2 ∧
      (calcSarRowTraced inp ci psi prev pc).2.2 ≤ 1 := by
  have hf := calcSarRowTraced_flip inp ci psi prev
  cases pc with
  | true => rw [hf.1, hf.2]; exact ⟨by decide, by decide⟩
  | false =>
      rw [calcSarRowTraced.eq_def]
      by_cases h0 : ci = 0
      · rw [if_pos h0]
        split_ifs <;>
          exact ⟨by show (1:ℕ) ≤ 2; decide, by show (0:ℕ) ≤ 1; decide⟩
      · rw [if_neg h0]
        simp only [Bool.false_eq_true, if_false]
        split_ifs <;>
          first
            | exact ⟨by show (1:ℕ) ≤ 2; decide, by show (1:ℕ) ≤ 1; decide⟩
            | exact ⟨by
                show (calcSarRowTraced inp ci psi prev true).2.1 + 1 ≤ 2
                rw [hf.1], by
                show (calcSarRowTraced inp ci psi prev true).2.2 + 1 ≤ 1
                rw [hf.2]⟩

/-- C9: Parabolic SAR bounded re-entry.  The instrumented
`_calculateSarRow` computes the same result as the plain one; every call
performs at most two invocations in total, so at most one
`position_changed=True` re-entry and at most one position flip per row;
the re-invocation with `position_changed=True` returns without evaluating
the flip condition again (zero flip-condition evaluations), so the
recursion depth is bounded by exactly one re-entry and the per-row
computation always terminates (both functions are total). -/
theorem C9_sar_bounded_reentry (inp : InputData) (ci psi : Nat)
    (prev : SarRow) (pc : Bool) :
    (calcSarRowTraced inp ci psi prev pc).1 = calcSarRow inp ci psi prev pc ∧
      (calcSarRowTraced inp ci psi prev pc).2.1 ≤ 2 ∧
      (calcSarRowTraced inp ci psi prev true).2.1 = 1 ∧
      (calcSarRowTraced inp ci psi prev true).2.2 = 0 ∧
      (calcSarRowTraced inp ci psi prev pc).2.2 ≤ 1 :=
  ⟨calcSarRowTraced_result inp ci psi prev pc,
    (calcSarRowTraced_counts inp ci psi prev pc).1,
    (calcSarRowTraced_flip inp ci psi prev).1,
    (calcSarRowTraced_flip inp ci psi prev).2,
    (calcSarRowTraced_counts inp ci psi prev pc).2⟩

end TTI

namespace TTI

/-! ### Claims C6, C7, C10: constructor validation -/

/-- Constructor arguments with a 3-row input and horizon 5: the horizon is
out of range, exercising the `N - h <= 0` territory of claim C6. -/
def exC6 : MLArgs :=
  { inputLen := 3, verbose := pyFalse, include_close_feature := pyTrue,
    include_volume_feature := pyFalse, ti_features := some [],
    price_diff_periods := .intVal 5, pool_size := .noneVal }

/-- Counterexample to C6 as stated: with `N = 3` and integer horizon
`h = 5` (so `N - h <= 0`), `_validateInputArguments` raises
`WrongValueForInputParameter` for `price_diff_periods` — the range check at
source lines 180–190 fires first — and not `NotEnoughInputData`: the
`len(index) - price_diff_periods <= 0` check at line 245 is unreachable
for an integer horizon. -/
theorem C6_counterexample :
    ((exC6.inputLen : Int) - 5 ≤ 0 ∧ exC6.price_diff_periods = .intVal 5) ∧
      validateInputArguments exC6 =
        .error (.wrongValueForInputParameter "price_diff_periods") ∧
      validateInputArguments exC6 ≠ .error .notEnoughInputData := by
  have he : validateInputArguments exC6 =
      .error (.wrongValueForInputParameter "price_diff_periods") := rfl
  refine ⟨⟨by decide, rfl⟩, he, ?_⟩
  rw [he]
  intro hcontra
  exact absurd (Except.error.inj hcontra) (by decide)

/-- C6 (amended): horizon validation.  For every argument record:
(a) if construction succeeds with integer horizon `h`, then `h` lies in
`[1, N-1]`; (b) once the boolean and feature-selection checks pass, an
integer horizon with `N - h <= 0` is rejected with
`WrongValueForInputParameter` for `price_diff_periods` (not
`NotEnoughInputData`: the range check fires first and makes the
`len(index) - price_diff_periods <= 0` check unreachable); (c) a
non-integer horizon is rejected with `WrongTypeForInputParameter`. -/
theorem C6_horizon_validation (a : MLArgs) :
    (∀ h : Int, a.price_diff_periods = .intVal h →
        validateInputArguments a = .ok () →
        1 ≤ h ∧ h < (a.inputLen : Int)) ∧
    (a.verbose.isBool = true → a.include_close_feature.isBool = true →
      ¬ ((a.ti_features.getD []).length = 0 ∧
          ¬ a.include_close_feature.truthy ∧
          ¬ a.include_volume_feature.truthy) →
      ∀ h : Int, a.price_diff_periods = .intVal h →
        (a.inputLen : Int) - h ≤ 0 →
        validateInputArguments a =
          .error (.wrongValueForInputParameter "price_diff_periods")) ∧
    (a.verbose.isBool = true → a.include_close_feature.isBool = true →
      ¬ ((a.ti_features.getD []).length = 0 ∧
          ¬ a.include_close_feature.truthy ∧
          ¬ a.include_volume_feature.truthy) →
      a.price_diff_periods = .nonInt →
      validateInputArguments a =
        .error (.wrongTypeForInputParameter "price_diff_periods")) := by
  refine ⟨?_, ?_, ?_⟩
  · intro h hp hok
    simp only [validateInputArguments, hp] at hok
    split_ifs at hok <;> first | omega | simp at hok
  · intro hv hc hnf h hp hle
    simp only [validateInputArguments, hp]
    rw [if_neg (by simp [hv]), if_neg (by simp [hc]), if_neg (by simp [hc]),
      if_neg hnf, if_neg (by simp [hv]), if_pos (Or.inr (by omega))]
  · intro hv hc hnf hp
    simp only [validateInputArguments, hp]
    rw [if_neg (by simp [hv]), if_neg (by simp [hc]), if_neg (by simp [hc]),
      if_neg hnf, if_neg (by simp [hv])]

/-- C6 (amended) at a concrete input: the record `exC6` (3 rows, horizon
5) is rejected with `WrongValueForInputParameter`. -/
theorem C6_horizon_validation_witness :
    validateInputArguments exC6 =
      .error (.wrongValueForInputParameter "price_diff_periods") :=
  (C6_horizon_validation exC6).2.1 rfl rfl (by decide) 5 rfl (by decide)

/-- An entry whose dict keys are valid (`'ti'` and `'kwargs'`, both
present) but whose formula name is unsupported fails the third check of
the `ti_features` loop. -/
theorem checkTiItem_unsupported (bad : TiItem)
    (hk : (bad.keys.all fun k => k == "ti" || k == "kwargs") = true)
    (ht : bad.keys.contains "ti" = true)
    (hw : bad.keys.contains "kwargs" = true)
    (hn : supportedIndicators.contains bad.tiName = false) :
    checkTiItem bad = .error (.wrongValueForInputParameter "ti_features.ti") := by
  have ht2 : "ti" ∈ bad.keys := by simpa using ht
  have hw2 : "kwargs" ∈ bad.keys := by simpa using hw
  have hn2 : bad.tiName ∉ supportedIndicators := by simpa using hn
  simp [checkTiItem, hk, ht2, hw2, hn2]

/-- A prefix of entries that all pass the per-entry checks is transparent
to the `ti_features` loop. -/
theorem checkTiItems_append (pre l : List TiItem)
    (hp : ∀ item ∈ pre, checkTiItem item = Except.ok ()) :
    checkTiItems (pre ++ l) = checkTiItems l := by
  induction pre with
  | nil => rfl
  | cons x xs ih =>
      have hx : checkTiItem x = Except.ok () := hp x (by simp)
      have ihh := ih (fun i hi => hp i (by simp [hi]))
      simp [checkTiItems, hx, ihh]

/-- C7: configuration fail-fast.  (a) When `ti_features` is `None` or the
empty list and neither the close nor the volume passthrough feature is
enabled, `_validateInputArguments` raises `NoFeaturesSelectedForMLData`;
(b) when some `ti_features` entry with valid dict keys names a formula
outside the supported set — all entries before it passing the per-entry
checks, and the remaining arguments valid — validation raises
`WrongValueForInputParameter` for `ti_features.ti`.  Both errors come out
of the constructor's validation pass, before any feature computation. -/
theorem C7_fail_fast :
    (∀ a : MLArgs, a.verbose.isBool = true →
      a.include_close_feature.isBool = true →
      a.include_close_feature.truthy = false →
      a.include_volume_feature.truthy = false →
      (a.ti_features = none ∨ a.ti_features = some []) →
      validateInputArguments a = .error .noFeaturesSelectedForMLData) ∧
    (∀ a : MLArgs, ∀ pre rest : List TiItem, ∀ bad : TiItem, ∀ h : Int,
      a.verbose.isBool = true → a.include_close_feature.isBool = true →
      a.ti_features = some (pre ++ bad :: rest) →
      (∀ item ∈ pre, checkTiItem item = Except.ok ()) →
      (bad.keys.all fun k => k == "ti" || k == "kwargs") = true →
      bad.keys.contains "ti" = true → bad.keys.contains "kwargs" = true →
      supportedIndicators.contains bad.tiName = false →
      a.price_diff_periods = .intVal h → 1 ≤ h → h < (a.inputLen : Int) →
      (a.pool_size = .noneVal ∨ ∃ n, a.pool_size = .intVal n ∧ 1 ≤ n) →
      validateInputArguments a =
        .error (.wrongValueForInputParameter "ti_features.ti")) := by
  constructor
  · intro a hv hc hct hvt hti
    rcases hti with hti | hti <;>
      simp [validateInputArguments, hti, hv, hc, hct, hvt]
  · intro a pre rest bad h hv hc hti hpre hk hkt hkw hn hp h1 h2 hpool
    have hbad := checkTiItem_unsupported bad hk hkt hkw hn
    have htail : validateTail a (pre ++ bad :: rest) h =
        .error (.wrongValueForInputParameter "ti_features.ti") := by
      unfold validateTail
      rw [checkTiItems_append pre (bad :: rest) hpre]
      simp [checkTiItems, hbad]
    have hlen0 : ¬ ((pre ++ bad :: rest).length = 0 ∧
        ¬ a.include_close_feature.truthy ∧
        ¬ a.include_volume_feature.truthy) := by
      intro hcon
      have h0 := hcon.1
      simp at h0
    simp only [validateInputArguments, hp, hti, Option.getD_some]
    rw [if_neg (by simp [hv]), if_neg (by simp [hc]), if_neg (by simp [hc]),
      if_neg hlen0, if_neg (by simp [hv]), if_neg (by omega)]
    rcases hpool with hpn | ⟨n, hpn, hn1⟩
    · simp only [hpn]
      exact htail
    · simp only [hpn]
      rw [if_neg (by omega)]
      exact htail

/-- Arguments with no feature source selected: `ti_features=None`, both
passthrough switches `False`. -/
def exC7a : MLArgs :=
  { inputLen := 5, verbose := pyFalse, include_close_feature := pyFalse,
    include_volume_feature := pyFalse, ti_features := none,
    price_diff_periods := .intVal 1, pool_size := .noneVal }

/-- A `ti_features` entry with valid keys naming the unsupported formula
`"Foo"`. -/
def exC7bad : TiItem := ⟨["ti", "kwargs"], "Foo", true⟩

/-- Arguments that are valid except for the unsupported entry
`exC7bad`. -/
def exC7b : MLArgs :=
  { inputLen := 5, verbose := pyFalse, include_close_feature := pyTrue,
    include_volume_feature := pyFalse, ti_features := some [exC7bad],
    price_diff_periods := .intVal 1, pool_size := .noneVal }

/-- C7 at concrete inputs: `exC7a` is rejected with
`NoFeaturesSelectedForMLData`, `exC7b` with `WrongValueForInputParameter`
for `ti_features.ti`. -/
theorem C7_fail_fast_witness :
    validateInputArguments exC7a = .error .noFeaturesSelectedForMLData ∧
      validateInputArguments exC7b =
        .error (.wrongValueForInputParameter "ti_features.ti") :=
  ⟨C7_fail_fast.1 exC7a rfl rfl rfl rfl (Or.inl rfl),
   C7_fail_fast.2 exC7b [] [] exC7bad 1 rfl rfl rfl
     (by intro i hi; exact absurd hi (List.not_mem_nil i))
     (by decide) (by decide) (by decide) (by decide) rfl (by decide)
     (by decide) (Or.inl rfl)⟩

/-- C10: the volume-switch type guard is dead.  For every argument record
whose `include_volume_feature` is NOT a boolean, with every other
argument valid (booleans where required, a feature source selected, a
well-formed `ti_features` list, an in-range integer horizon, a valid pool
size, indicator construction succeeding), `_validateInputArguments`
returns successfully: the guard at source lines 153–162 re-tests
`include_close_feature` while its error message names
`include_volume_feature`, so no `WrongTypeForInputParameter` is ever
raised for `include_volume_feature`. -/
theorem C10_volume_guard_dead (a : MLArgs) (h : Int)
    (hb : a.include_volume_feature.isBool = false)
    (hv : a.verbose.isBool = true)
    (hc : a.include_close_feature.isBool = true)
    (hnf : ¬ ((a.ti_features.getD []).length = 0 ∧
        ¬ a.include_close_feature.truthy ∧
        ¬ a.include_volume_feature.truthy))
    (hp : a.price_diff_periods = .intVal h)
    (h1 : 1 ≤ h) (h2 : h < (a.inputLen : Int))
    (hpool : a.pool_size = .noneVal)
    (hti : checkTiItems (a.ti_features.getD []) = .ok ())
    (hci : constructIndicators a.inputLen (a.ti_features.getD []) = .ok ()) :
    validateInputArguments a = .ok () := by
  simp only [validateInputArguments, hp, hpool]
  rw [if_neg (by simp [hv]), if_neg (by simp [hc]), if_neg (by simp [hc]),
    if_neg hnf, if_neg (by simp [hv]), if_neg (by omega)]
  simp only [validateTail, hti]
  rw [if_neg (by omega)]
  exact hci

/-- A `ti_features` entry selecting the Momentum formula with default
parameters. -/
def exC10ti : TiItem := ⟨["ti", "kwargs"], "Momentum", true⟩

/-- Arguments valid in every position except that
`include_volume_feature` is a non-boolean truthy value. -/
def exC10 : MLArgs :=
  { inputLen := 10, verbose := pyFalse, include_close_feature := pyTrue,
    include_volume_feature := ⟨false, true⟩, ti_features := some [exC10ti],
    price_diff_periods := .intVal 2, pool_size := .noneVal }

/-- C10 at a concrete input: `exC10` has a non-boolean
`include_volume_feature` and validation still returns successfully. -/
theorem C10_volume_guard_dead_witness :
    exC10.include_volume_feature.isBool = false ∧
      validateInputArguments exC10 = .ok () :=
  ⟨rfl, C10_volume_guard_dead exC10 2 rfl rfl rfl (by decide) rfl
    (by decide) (by decide) rfl rfl rfl⟩

end TTI
